import Mathlib

/-!
Verification of the Plumber data-engineering agent core
(`plumber_agent/sub_agents/dataflow_agent` and `dataproc_template_agent`).

The Python sources are shallowly embedded: each Python function that a claim
touches is translated into an executable Lean definition operating on
`String` / `List Char` / an explicit JSON value type, with external effects
(subprocess execution, object storage, the filesystem slot of the transient
pipeline file, random hex suffixes) passed in explicitly as oracle data.

Modelling conventions, used throughout and noted again at each definition:
* Python `dict`s coming from `json.loads` are association lists in insertion
  order (Python dicts preserve insertion order; keys are unique).
* `list(set(a) - set(b))` iterates a hash set, whose order is unspecified in
  Python; the model fixes the order produced by `setDiff` below.  No claim
  depends on the order of the reported lists, only on their elements.
* Python string operations are modelled character-wise for the ASCII range
  (job names, parameter names, gcloud output).
-/

/-- Python-style single quote character, used when rendering `repr` of
string lists into f-string messages. -/
def pyQuote : String := (Char.ofNat 39).toString

/-- Model of `", ".join`-style joining used to render Python lists:
`joinStr sep [a, b, c] = a ++ sep ++ b ++ sep ++ c`. -/
def joinStr (sep : String) : List String → String
  | [] => ""
  | [x] => x
  | x :: xs => x ++ sep ++ joinStr sep xs

/-- Model of the Python `repr` of a list of strings, as interpolated by an
f-string such as `f"... {invalid_params} ..."`: `['a', 'b']`.  (Python would
switch quote style for names containing a quote; parameter names in scope
here never do, and no claim depends on that corner.) -/
def pyReprStrList (xs : List String) : String :=
  "[" ++ joinStr ", " (xs.map (fun s => pyQuote ++ s ++ pyQuote)) ++ "]"

/-- Model of Python `list(set(a) - set(b))`: the elements of `a`, without
duplicates, that do not occur in `b`.  Python's hash-set iteration order is
unspecified; the model fixes the order given by `List.dedup`. -/
def setDiff (a b : List String) : List String :=
  a.dedup.filter (fun x => decide (x ∉ b))

theorem setDiff_eq_nil_iff (a b : List String) :
    setDiff a b = [] ↔ ∀ x ∈ a, x ∈ b := by
  unfold setDiff
  rw [List.filter_eq_nil_iff]
  constructor
  · intro h x hx
    have := h x (List.mem_dedup.mpr hx)
    simpa using this
  · intro h x hx
    simp [h x (List.mem_dedup.mp hx)]

theorem setDiff_ne_nil_iff (a b : List String) :
    setDiff a b ≠ [] ↔ ∃ x ∈ a, x ∉ b := by
  rw [Ne, setDiff_eq_nil_iff]
  push_neg
  rfl

/-- The `{"required": [...], "optional": [...]}` parameter schema of a
template definition, as consumed by both validators. -/
structure ParamSchema where
  required : List String
  optional : List String
deriving DecidableEq

/-- The `{"validation_result": ..., "comment": ...}` dictionary returned by
both copies of `validate_input_params`. -/
structure VResult where
  validation_result : String
  comment : String
deriving DecidableEq

namespace DataflowTools

/-- Embedding of `validate_input_params` from
`dataflow_agent/tools/dataflow_template_tools.py` (lines 52-98).  The
`user_inputs` dict is an association list; only its keys are consulted.
The `try/except` wrapper of the source is unreachable in the typed model
(the body is total), so no error branch is produced. -/
def validate_input_params (template_definition : ParamSchema)
    (user_inputs : List (String × String)) : VResult :=
  let required_params := template_definition.required
  let optional_params := template_definition.optional
  let all_defined_params := required_params ++ optional_params
  let user_param_keys := user_inputs.map Prod.fst
  let invalid_params := setDiff user_param_keys all_defined_params
  if invalid_params ≠ [] then
    ⟨"failed", "Invalid param(s) passed: " ++ pyReprStrList invalid_params ++
      ". Valid params are: " ++ pyReprStrList all_defined_params⟩
  else
    let missing_required := setDiff required_params user_param_keys
    if missing_required ≠ [] then
      ⟨"failed", "Missing required param(s): " ++ pyReprStrList missing_required⟩
    else
      ⟨"success", "Validation Passed"⟩

end DataflowTools

namespace DataprocUtils

/-- Embedding of `validate_input_params` from
`dataproc_template_agent/utils.py` (lines 202-250).  Structure as in the
dataflow copy, but the failure comments are fixed strings and the
missing-required check is a subset test (`issubset`). -/
def validate_input_params (template_params : ParamSchema)
    (input_params : List (String × String)) : VResult :=
  let required_template_params := template_params.required
  let optional_template_params := template_params.optional
  let all_params := required_template_params ++ optional_template_params
  let input_params_name := input_params.map Prod.fst
  let invalid_input_params := setDiff input_params_name all_params
  if invalid_input_params ≠ [] then
    ⟨"failed", "Invalid param passed"⟩
  else
    let all_required_params :=
      required_template_params.all (fun r => decide (r ∈ input_params_name))
    if ¬ all_required_params then
      ⟨"failed", "Missing required params"⟩
    else
      ⟨"success", "Validation Passed"⟩

end DataprocUtils

/-- Model of Python `pat in s` prefix step: `leadsSeg pat l` holds when
`pat` begins `l`. -/
def leadsSeg : List Char → List Char → Bool
  | [], _ => true
  | _ :: _, [] => false
  | p :: ps, x :: xs => p = x && leadsSeg ps xs

/-- Model of the Python substring test `pat in s` on decoded characters:
`hasSeg pat l` holds when `pat` occurs contiguously inside `l`. -/
def hasSeg (pat : List Char) : List Char → Bool
  | [] => leadsSeg pat []
  | x :: xs => leadsSeg pat (x :: xs) || hasSeg pat xs

/-- Claim C1: for every schema and every user parameter mapping, both
copies of `validate_input_params` (dataflow and dataproc) return a success
result exactly when every supplied key is among the declared
required-or-optional names and every required name is supplied. -/
theorem claim_C1_validate_success_iff (S : ParamSchema)
    (P : List (String × String)) :
    ((DataflowTools.validate_input_params S P).validation_result = "success" ↔
      ((∀ k ∈ P.map Prod.fst, k ∈ S.required ++ S.optional) ∧
        ∀ r ∈ S.required, r ∈ P.map Prod.fst)) ∧
    ((DataprocUtils.validate_input_params S P).validation_result = "success" ↔
      ((∀ k ∈ P.map Prod.fst, k ∈ S.required ++ S.optional) ∧
        ∀ r ∈ S.required, r ∈ P.map Prod.fst)) := by
  constructor
  · simp only [DataflowTools.validate_input_params]
    by_cases h1 : setDiff (P.map Prod.fst) (S.required ++ S.optional) = []
    · rw [if_neg (not_not_intro h1)]
      by_cases h2 : setDiff S.required (P.map Prod.fst) = []
      · rw [if_neg (not_not_intro h2)]
        exact iff_of_true rfl
          ⟨(setDiff_eq_nil_iff _ _).mp h1, (setDiff_eq_nil_iff _ _).mp h2⟩
      · rw [if_pos h2]
        refine iff_of_false (by intro h; simp at h) ?_
        rcases (setDiff_ne_nil_iff _ _).mp h2 with ⟨r, hr, hnr⟩
        rintro ⟨_, hb⟩
        exact hnr (hb r hr)
    · rw [if_pos h1]
      refine iff_of_false (by intro h; simp at h) ?_
      rcases (setDiff_ne_nil_iff _ _).mp h1 with ⟨x, hx, hnx⟩
      rintro ⟨ha, _⟩
      exact hnx (ha x hx)
  · simp only [DataprocUtils.validate_input_params]
    by_cases h1 : setDiff (P.map Prod.fst) (S.required ++ S.optional) = []
    · rw [if_neg (not_not_intro h1)]
      by_cases h2 : (S.required.all fun r => decide (r ∈ P.map Prod.fst)) = true
      · rw [if_neg (not_not_intro h2)]
        refine iff_of_true rfl ⟨(setDiff_eq_nil_iff _ _).mp h1, ?_⟩
        intro r hr
        rw [List.all_eq_true] at h2
        simpa using h2 r hr
      · rw [if_pos h2]
        refine iff_of_false (by intro h; simp at h) ?_
        rw [List.all_eq_true] at h2
        push_neg at h2
        rcases h2 with ⟨r, hr, hnr⟩
        have hnr2 : r ∉ P.map Prod.fst := by simpa using hnr
        rintro ⟨_, hb⟩
        exact hnr2 (hb r hr)
    · rw [if_pos h1]
      refine iff_of_false (by intro h; simp at h) ?_
      rcases (setDiff_ne_nil_iff _ _).mp h1 with ⟨x, hx, hnx⟩
      rintro ⟨ha, _⟩
      exact hnx (ha x hx)

/-- Claim C2, counterexample: with schema `required = ["alpha"]`,
`optional = []` and supplied parameters `{"xyz": "1"}` (an invalid key,
and the required key also missing), the dataproc copy of
`validate_input_params` does return the invalid-parameter failure first,
but its comment is the fixed string `Invalid param passed`: neither the
offending name `xyz` nor the legal name `alpha` occurs in it, refuting
the claim that the failure reports the offending names and the legal set
for both copies of the validator. -/
theorem claim_C2_counterexample :
    DataprocUtils.validate_input_params ⟨["alpha"], []⟩ [("xyz", "1")] =
      ⟨"failed", "Invalid param passed"⟩ ∧
    hasSeg "xyz".data "Invalid param passed".data = false ∧
    hasSeg "alpha".data "Invalid param passed".data = false := by
  decide

/-- Claim C2 as amended: both validators short-circuit in a fixed order —
any invalid key produces the invalid-parameter failure even when required
parameters are also missing, and the missing-required failure occurs only
when every supplied key is legal; the dataflow copy reports the offending
names and the full legal set (and, for missing parameters, the missing
names), while the dataproc copy reports only fixed comments without the
names. -/
theorem claim_C2_short_circuit_order (S : ParamSchema)
    (P : List (String × String)) :
    ((∃ k ∈ P.map Prod.fst, k ∉ S.required ++ S.optional) →
      DataflowTools.validate_input_params S P =
        ⟨"failed", "Invalid param(s) passed: " ++
          pyReprStrList (setDiff (P.map Prod.fst) (S.required ++ S.optional)) ++
          ". Valid params are: " ++ pyReprStrList (S.required ++ S.optional)⟩ ∧
      DataprocUtils.validate_input_params S P =
        ⟨"failed", "Invalid param passed"⟩) ∧
    ((∀ k ∈ P.map Prod.fst, k ∈ S.required ++ S.optional) →
      (∃ r ∈ S.required, r ∉ P.map Prod.fst) →
      DataflowTools.validate_input_params S P =
        ⟨"failed", "Missing required param(s): " ++
          pyReprStrList (setDiff S.required (P.map Prod.fst))⟩ ∧
      DataprocUtils.validate_input_params S P =
        ⟨"failed", "Missing required params"⟩) := by
  constructor
  · intro hinv
    have h1 : setDiff (P.map Prod.fst) (S.required ++ S.optional) ≠ [] :=
      (setDiff_ne_nil_iff _ _).mpr hinv
    constructor
    · simp only [DataflowTools.validate_input_params]
      rw [if_pos h1]
    · simp only [DataprocUtils.validate_input_params]
      rw [if_pos h1]
  · intro hleg hmiss
    have h1 : setDiff (P.map Prod.fst) (S.required ++ S.optional) = [] :=
      (setDiff_eq_nil_iff _ _).mpr hleg
    constructor
    · simp only [DataflowTools.validate_input_params]
      rw [if_neg (not_not_intro h1)]
      have h2 : setDiff S.required (P.map Prod.fst) ≠ [] :=
        (setDiff_ne_nil_iff _ _).mpr hmiss
      rw [if_pos h2]
    · simp only [DataprocUtils.validate_input_params]
      rw [if_neg (not_not_intro h1)]
      rcases hmiss with ⟨r, hr, hnr⟩
      have h2 : ¬ ((S.required.all fun r => decide (r ∈ P.map Prod.fst)) = true) := by
        rw [List.all_eq_true]
        intro hall
        exact hnr (by simpa using hall r hr)
      rw [if_pos h2]

/-- Witness for C2's amended theorem: instantiated at the schema
`required = ["alpha"]` with supplied parameters `{"xyz": "1"}` (invalid
key present together with a missing required key) and, separately, with
no parameters supplied at all (missing required key only). -/
theorem claim_C2_short_circuit_order_witness :
    (DataflowTools.validate_input_params ⟨["alpha"], []⟩ [("xyz", "1")] =
      ⟨"failed", "Invalid param(s) passed: [" ++ pyQuote ++ "xyz" ++ pyQuote ++
        "]. Valid params are: [" ++ pyQuote ++ "alpha" ++ pyQuote ++ "]"⟩ ∧
     DataprocUtils.validate_input_params ⟨["alpha"], []⟩ [("xyz", "1")] =
      ⟨"failed", "Invalid param passed"⟩) ∧
    (DataflowTools.validate_input_params ⟨["alpha"], []⟩ [] =
      ⟨"failed", "Missing required param(s): [" ++ pyQuote ++ "alpha" ++ pyQuote ++ "]"⟩ ∧
     DataprocUtils.validate_input_params ⟨["alpha"], []⟩ [] =
      ⟨"failed", "Missing required params"⟩) := by
  have hA := (claim_C2_short_circuit_order ⟨["alpha"], []⟩ [("xyz", "1")]).1
    (by decide)
  have hB := (claim_C2_short_circuit_order ⟨["alpha"], []⟩ []).2
    (by decide) (by decide)
  refine ⟨⟨?_, hA.2⟩, ⟨?_, hB.2⟩⟩
  · rw [hA.1]; decide
  · rw [hB.1]; decide

/-! Job-name sanitizer (`dataflow_agent/tools/pipeline_utils.py`, lines
13-43).  The random fallback `uuid.uuid4().hex[:8]` is passed in
explicitly as the `fb` argument (eight lowercase hexadecimal characters in
Python).  Python string operations are modelled character-wise; `lower`,
`isalpha` and `isalnum` are modelled on the ASCII range, which is faithful
for every character that can survive the `[^a-z0-9-]` replacement. -/

/-- Model of Python `str.lower()` character-wise on ASCII. -/
def pyLowerChar (c : Char) : Char :=
  if 'A' ≤ c ∧ c ≤ 'Z' then Char.ofNat (c.toNat + 32) else c

/-- Characters allowed by the sanitizer's character class `[a-z0-9-]`. -/
def isLowerAlpha (c : Char) : Bool := 'a' ≤ c && c ≤ 'z'

/-- Decimal digit test, modelling `\d` / `0-9` on ASCII. -/
def isDigitChar (c : Char) : Bool := '0' ≤ c && c ≤ '9'

/-- Membership in the class `[a-z0-9-]`. -/
def legalChar (c : Char) : Bool := isLowerAlpha c || isDigitChar c || c = '-'

/-- Lowercase alphanumeric test (`isalnum` restricted to the characters
that can appear after the replacement step). -/
def isLowerAlnum (c : Char) : Bool := isLowerAlpha c || isDigitChar c

/-- Lowercase hexadecimal digit, the alphabet of `uuid4().hex`. -/
def isLowerHex (c : Char) : Bool := isDigitChar c || ('a' ≤ c && c ≤ 'f')

/-- Model of `re.sub(r"[^a-z0-9-]", "-", s)` on one character. -/
def replaceIllegal (c : Char) : Char := if legalChar c then c else '-'

/-- Model of `re.sub(r"-+", "-", s)`: collapse runs of hyphens.  A hyphen
immediately followed (after collapsing) by another hyphen is dropped. -/
def collapseDashes : List Char → List Char
  | [] => []
  | a :: rest =>
    let r := collapseDashes rest
    if a = '-' && r.headD ' ' = '-' then r else a :: r

/-- Leading half of Python `str.strip("-")`. -/
def stripLead : List Char → List Char
  | [] => []
  | c :: cs => if c = '-' then stripLead cs else c :: cs

/-- Trailing half of Python `str.strip("-")`: drop the trailing run of
hyphens. -/
def stripTrail : List Char → List Char
  | [] => []
  | c :: cs =>
    let r := stripTrail cs
    if r = [] then (if c = '-' then [] else [c]) else c :: r

/-- Model of Python `str.strip("-")`. -/
def stripDashes (l : List Char) : List Char := stripTrail (stripLead l)

/-- Second half of the sanitizer (pipeline_utils.py lines 37-43), applied
to the stripped intermediate string: the empty case returns the synthesized
fallback `job-<uuid hex>`; otherwise the `job-` prefix is added when the
first character is not a letter, the last character is dropped when not
alphanumeric (`sanitized[-1]` of the always nonempty string is modelled by
`getLastD`), and the result is truncated to 63 characters. -/
def sanitizeTail : List Char → List Char → List Char
  | fb, [] => 'j' :: 'o' :: 'b' :: '-' :: fb
  | _, c :: cs =>
    let s5 := if isLowerAlpha c then c :: cs else 'j' :: 'o' :: 'b' :: '-' :: c :: cs
    let s6 := if isLowerAlnum (s5.getLastD ' ') then s5 else s5.dropLast
    s6.take 63

/-- Embedding of `_sanitize_job_name` (pipeline_utils.py lines 13-43) on
character lists; `fb` stands for the `uuid.uuid4().hex[:8]` suffix of the
synthesized fallback name. -/
def sanitizeCore (fb : List Char) (name : List Char) : List Char :=
  let s1 := name.map pyLowerChar
  let s2 := s1.map replaceIllegal
  let s3 := collapseDashes s2
  let s4 := stripDashes s3
  sanitizeTail fb s4

/-- String-level wrapper of the sanitizer, mirroring the Python
signature. -/
def _sanitize_job_name (fb : String) (name : String) : String :=
  ⟨sanitizeCore fb.data name.data⟩

/-- No two adjacent hyphens (the post-condition of `collapseDashes`). -/
def noDoubleDash : List Char → Bool
  | [] => true
  | [_] => true
  | a :: b :: rest => !(a = '-' && b = '-') && noDoubleDash (b :: rest)

/-- A fully canonical job name: nonempty, over `[a-z0-9-]`, no adjacent
hyphens, a letter first and an alphanumeric character last. -/
def goodCore (l : List Char) : Prop :=
  l ≠ [] ∧ (∀ c ∈ l, legalChar c = true) ∧ noDoubleDash l = true ∧
    isLowerAlpha (l.headD ' ') = true ∧ isLowerAlnum (l.getLastD ' ') = true

theorem getLastD_irrel {l : List Char} (h : l ≠ []) (d e : Char) :
    l.getLastD d = l.getLastD e := by
  induction l generalizing d e with
  | nil => exact absurd rfl h
  | cons a t ih =>
    cases t with
    | nil => rfl
    | cons b t2 =>
      simp only [List.getLastD_cons]

theorem getLastD_mem {l : List Char} (h : l ≠ []) (d : Char) :
    l.getLastD d ∈ l := by
  induction l generalizing d with
  | nil => exact absurd rfl h
  | cons a t ih =>
    cases t with
    | nil => simp [List.getLastD_cons]
    | cons b t2 =>
      rw [List.getLastD_cons]
      exact List.mem_cons_of_mem a (ih (by simp) a)

theorem isLowerAlpha_ne_dash {c : Char} (h : isLowerAlpha c = true) : c ≠ '-' := by
  rintro rfl
  simp [isLowerAlpha] at h

theorem isLowerAlnum_ne_dash {c : Char} (h : isLowerAlnum c = true) : c ≠ '-' := by
  rintro rfl
  simp [isLowerAlnum, isLowerAlpha, isDigitChar] at h

theorem isLowerAlnum_of_legal {c : Char} (h : legalChar c = true) (hne : c ≠ '-') :
    isLowerAlnum c = true := by
  simp only [legalChar, Bool.or_eq_true] at h
  rcases h with (h | h) | h
  · simp [isLowerAlnum, h]
  · simp [isLowerAlnum, h]
  · exact absurd (by simpa using h) hne

theorem legalChar_of_alnum {c : Char} (h : isLowerAlnum c = true) :
    legalChar c = true := by
  simp only [isLowerAlnum, Bool.or_eq_true] at h
  rcases h with h | h <;> simp [legalChar, h]

theorem isLowerAlnum_of_hex {c : Char} (h : isLowerHex c = true) :
    isLowerAlnum c = true := by
  simp only [isLowerHex, Bool.or_eq_true, Bool.and_eq_true, decide_eq_true_eq] at h
  rcases h with h | ⟨h1, h2⟩
  · simp [isLowerAlnum, h]
  · have h3 : c ≤ 'z' := le_trans h2 (by decide)
    simp [isLowerAlnum, isLowerAlpha, h1, h3]

theorem hex_ne_dash {c : Char} (h : isLowerHex c = true) : c ≠ '-' :=
  isLowerAlnum_ne_dash (isLowerAlnum_of_hex h)

theorem pyLowerChar_id_of_legal {c : Char} (h : legalChar c = true) :
    pyLowerChar c = c := by
  unfold pyLowerChar
  rw [if_neg]
  rintro ⟨hA, hZ⟩
  simp only [legalChar, isLowerAlpha, isDigitChar, Bool.or_eq_true,
    Bool.and_eq_true, decide_eq_true_eq] at h
  rcases h with (⟨h1, _⟩ | ⟨_, h2⟩) | h3
  · exact absurd (le_trans h1 hZ) (by decide)
  · exact absurd (le_trans hA h2) (by decide)
  · subst h3
    exact absurd hA (by decide)

theorem replaceIllegal_id_of_legal {c : Char} (h : legalChar c = true) :
    replaceIllegal c = c := by
  unfold replaceIllegal
  rw [if_pos h]

theorem map_id_of_mem {f : Char → Char} :
    ∀ (l : List Char), (∀ c ∈ l, f c = c) → l.map f = l := by
  intro l h
  induction l with
  | nil => rfl
  | cons a t ih =>
    rw [List.map_cons, h a (by simp), ih (fun c hc => h c (by simp [hc]))]

theorem mem_collapseDashes {x : Char} :
    ∀ {l : List Char}, x ∈ collapseDashes l → x ∈ l := by
  intro l
  induction l with
  | nil => simp [collapseDashes]
  | cons a rest ih =>
    simp only [collapseDashes]
    split_ifs with h
    · intro hx
      exact List.mem_cons_of_mem a (ih hx)
    · intro hx
      rcases List.mem_cons.mp hx with hx | hx
      · exact hx ▸ List.mem_cons_self a rest
      · exact List.mem_cons_of_mem a (ih hx)

theorem noDoubleDash_cons_cons (a b : Char) (rest : List Char) :
    noDoubleDash (a :: b :: rest) =
      (!(a = '-' && b = '-') && noDoubleDash (b :: rest)) := rfl

theorem noDoubleDash_tail {a : Char} {l : List Char}
    (h : noDoubleDash (a :: l) = true) : noDoubleDash l = true := by
  cases l with
  | nil => rfl
  | cons b t =>
    rw [noDoubleDash_cons_cons, Bool.and_eq_true] at h
    exact h.2

theorem noDoubleDash_collapseDashes : ∀ (l : List Char),
    noDoubleDash (collapseDashes l) = true := by
  intro l
  induction l with
  | nil => rfl
  | cons a rest ih =>
    simp only [collapseDashes]
    split_ifs with h
    · exact ih
    · cases hr : collapseDashes rest with
      | nil => rfl
      | cons b t =>
        rw [noDoubleDash_cons_cons, Bool.and_eq_true]
        refine ⟨?_, hr ▸ ih⟩
        rw [hr] at h
        have h2 : ¬ (a = '-' ∧ b = '-') := by
          rintro ⟨ha, hb⟩
          exact h (by simp [ha, hb])
        rcases Decidable.em (a = '-') with ha | ha
        · have hb : ¬ b = '-' := fun hb => h2 ⟨ha, hb⟩
          simp [hb]
        · simp [ha]

theorem collapseDashes_id {l : List Char} (h : noDoubleDash l = true) :
    collapseDashes l = l := by
  induction l with
  | nil => rfl
  | cons a rest ih =>
    have hr : collapseDashes rest = rest := ih (noDoubleDash_tail h)
    simp only [collapseDashes, hr]
    rw [if_neg]
    intro hcond
    rw [Bool.and_eq_true, decide_eq_true_eq, decide_eq_true_eq] at hcond
    cases rest with
    | nil => exact absurd hcond.2 (by decide)
    | cons b t =>
      rw [noDoubleDash_cons_cons, Bool.and_eq_true] at h
      have hb : b = '-' := by simpa using hcond.2
      simp [hcond.1, hb] at h

theorem mem_stripLead {x : Char} :
    ∀ {l : List Char}, x ∈ stripLead l → x ∈ l := by
  intro l
  induction l with
  | nil => simp [stripLead]
  | cons a rest ih =>
    simp only [stripLead]
    split_ifs with h
    · intro hx
      exact List.mem_cons_of_mem a (ih hx)
    · exact fun hx => hx

theorem noDoubleDash_stripLead {l : List Char} (h : noDoubleDash l = true) :
    noDoubleDash (stripLead l) = true := by
  induction l with
  | nil => exact h
  | cons a rest ih =>
    simp only [stripLead]
    split_ifs with ha
    · exact ih (noDoubleDash_tail h)
    · exact h

theorem stripLead_head_ne_dash :
    ∀ {l : List Char} {c : Char} {cs : List Char},
      stripLead l = c :: cs → c ≠ '-' := by
  intro l
  induction l with
  | nil => intro c cs h; simp [stripLead] at h
  | cons a rest ih =>
    intro c cs h
    simp only [stripLead] at h
    split_ifs at h with ha
    · exact ih h
    · rw [List.cons.injEq] at h
      exact h.1 ▸ ha

theorem stripLead_id {l : List Char} (h : l.headD ' ' ≠ '-') :
    stripLead l = l := by
  cases l with
  | nil => rfl
  | cons a rest =>
    simp only [List.headD] at h
    simp [stripLead, h]

theorem mem_stripTrail {x : Char} :
    ∀ {l : List Char}, x ∈ stripTrail l → x ∈ l := by
  intro l
  induction l with
  | nil => simp [stripTrail]
  | cons a rest ih =>
    simp only [stripTrail]
    split_ifs with h1 h2
    · simp
    · intro hx
      rcases List.mem_cons.mp hx with hx | hx
      · exact hx ▸ List.mem_cons_self a rest
      · simp at hx
    · intro hx
      rcases List.mem_cons.mp hx with hx | hx
      · exact hx ▸ List.mem_cons_self a rest
      · exact List.mem_cons_of_mem a (ih hx)

theorem stripTrail_head :
    ∀ {c : Char} {cs r : List Char}, stripTrail (c :: cs) = r → r ≠ [] →
      ∃ t, r = c :: t := by
  intro c cs r h hne
  simp only [stripTrail] at h
  split_ifs at h with h1 h2
  · exact absurd h.symm hne
  · exact ⟨[], h.symm⟩
  · exact ⟨stripTrail cs, h.symm⟩

theorem noDoubleDash_stripTrail {l : List Char} (h : noDoubleDash l = true) :
    noDoubleDash (stripTrail l) = true := by
  induction l with
  | nil => rfl
  | cons a rest ih =>
    simp only [stripTrail]
    split_ifs with h1 h2
    · rfl
    · rfl
    · cases rest with
      | nil => simp [stripTrail] at h1
      | cons b t =>
        have hr := ih (noDoubleDash_tail h)
        rcases @stripTrail_head b t _ rfl h1 with ⟨t2, ht2⟩
        rw [ht2] at hr ⊢
        rw [noDoubleDash_cons_cons, Bool.and_eq_true]
        refine ⟨?_, hr⟩
        rw [noDoubleDash_cons_cons, Bool.and_eq_true] at h
        exact h.1

theorem stripTrail_last_ne_dash :
    ∀ {l r : List Char}, stripTrail l = r → r ≠ [] → r.getLastD ' ' ≠ '-' := by
  intro l
  induction l with
  | nil => intro r h hne; exact absurd h.symm hne
  | cons a rest ih =>
    intro r h hne
    simp only [stripTrail] at h
    split_ifs at h with h1 h2
    · exact absurd h.symm hne
    · rw [← h]
      simpa using h2
    · rw [← h, List.getLastD_cons, getLastD_irrel h1 a (' ' : Char)]
      exact ih rfl h1


theorem stripTrail_cons (c : Char) (cs : List Char) :
    stripTrail (c :: cs) =
      if stripTrail cs = [] then (if c = '-' then [] else [c])
      else c :: stripTrail cs := rfl

theorem stripTrail_id {l : List Char} (h : l.getLastD ' ' ≠ '-') :
    stripTrail l = l := by
  induction l with
  | nil => rfl
  | cons a rest ih =>
    cases rest with
    | nil =>
      simp only [List.getLastD_cons, List.getLastD_nil] at h
      simp [stripTrail_cons, stripTrail, h]
    | cons b t =>
      have hlast : (b :: t).getLastD ' ' ≠ '-' := by
        rw [List.getLastD_cons] at h
        rw [@getLastD_irrel (b :: t) (by simp) ' ' a]
        exact h
      have hr : stripTrail (b :: t) = b :: t := ih hlast
      rw [stripTrail_cons, hr, if_neg (by simp)]

theorem noDoubleDash_append_left :
    ∀ (y t : List Char), noDoubleDash (y ++ t) = true → noDoubleDash y = true := by
  intro y t
  induction y with
  | nil => intro _; rfl
  | cons a y2 ih =>
    intro h
    cases y2 with
    | nil => rfl
    | cons b y3 =>
      rw [List.cons_append, List.cons_append] at h
      rw [noDoubleDash_cons_cons, Bool.and_eq_true] at h ⊢
      refine ⟨h.1, ?_⟩
      exact ih (by rw [List.cons_append]; exact h.2)

theorem noDoubleDash_of_no_dash {l : List Char} (h : ∀ c ∈ l, c ≠ '-') :
    noDoubleDash l = true := by
  induction l with
  | nil => rfl
  | cons a rest ih =>
    cases rest with
    | nil => rfl
    | cons b t =>
      rw [noDoubleDash_cons_cons, Bool.and_eq_true]
      refine ⟨by simp [h a (by simp)], ih (fun c hc => h c (by simp [hc]))⟩

theorem noDoubleDash_job_dash {c : Char} {cs : List Char}
    (hc : c ≠ '-') (h : noDoubleDash (c :: cs) = true) :
    noDoubleDash ('j' :: 'o' :: 'b' :: '-' :: c :: cs) = true := by
  rw [noDoubleDash_cons_cons, noDoubleDash_cons_cons, noDoubleDash_cons_cons,
    noDoubleDash_cons_cons]
  simp [hc, h]

theorem getLastD_job_dash (c : Char) (cs : List Char) (d : Char) :
    ('j' :: 'o' :: 'b' :: '-' :: c :: cs).getLastD d = (c :: cs).getLastD ' ' := by
  rw [List.getLastD_cons, List.getLastD_cons, List.getLastD_cons, List.getLastD_cons]
  exact getLastD_irrel (by simp) '-' ' '

/-- Structure of every sanitizer output: either the synthesized fallback
name, or the 63-character truncation of a fully canonical name. -/
theorem sanitizeCore_structure (fb name : List Char) :
    sanitizeCore fb name = 'j' :: 'o' :: 'b' :: '-' :: fb ∨
      ∃ z, goodCore z ∧ sanitizeCore fb name = z.take 63 := by
  simp only [sanitizeCore]
  cases h4 : stripDashes (collapseDashes ((name.map pyLowerChar).map replaceIllegal)) with
  | nil => exact Or.inl rfl
  | cons c cs =>
    right
    have hlegal : ∀ x ∈ c :: cs, legalChar x = true := by
      intro x hx
      have hx2 : x ∈ collapseDashes ((name.map pyLowerChar).map replaceIllegal) := by
        have := h4 ▸ hx
        exact mem_stripLead (mem_stripTrail this)
      have hx3 : x ∈ (name.map pyLowerChar).map replaceIllegal :=
        mem_collapseDashes hx2
      rcases List.mem_map.mp hx3 with ⟨y, _, hy⟩
      rw [← hy]
      unfold replaceIllegal
      split_ifs with hleg
      · exact hleg
      · decide
    have hnd : noDoubleDash (c :: cs) = true := by
      rw [← h4]
      exact noDoubleDash_stripTrail (noDoubleDash_stripLead
        (noDoubleDash_collapseDashes _))
    have hhead : c ≠ '-' := by
      unfold stripDashes at h4
      cases hlead : stripLead (collapseDashes ((name.map pyLowerChar).map replaceIllegal)) with
      | nil => rw [hlead] at h4; simp [stripTrail] at h4
      | cons b t =>
        rw [hlead] at h4
        rcases stripTrail_head h4 (by simp) with ⟨t2, ht2⟩
        have hb : b ≠ '-' := stripLead_head_ne_dash hlead
        injection ht2 with hcb _
        exact hcb ▸ hb
    have hlast : (c :: cs).getLastD ' ' ≠ '-' := by
      unfold stripDashes at h4
      exact stripTrail_last_ne_dash h4 (by simp)
    have hlastAl : isLowerAlnum ((c :: cs).getLastD ' ') = true :=
      isLowerAlnum_of_legal (hlegal _ (getLastD_mem (by simp) ' ')) hlast
    by_cases hca : isLowerAlpha c = true
    · refine ⟨c :: cs, ⟨by simp, hlegal, hnd, by simpa using hca, hlastAl⟩, ?_⟩
      simp only [sanitizeTail]
      rw [if_pos hca, if_pos hlastAl]
    · have hjA : isLowerAlnum (('j' :: 'o' :: 'b' :: '-' :: c :: cs).getLastD ' ') = true := by
        rw [getLastD_job_dash]
        exact hlastAl
      refine ⟨'j' :: 'o' :: 'b' :: '-' :: c :: cs,
        ⟨by simp, ?_, noDoubleDash_job_dash hhead hnd, rfl, hjA⟩, ?_⟩
      · intro x hx
        simp only [List.mem_cons] at hx
        rcases hx with rfl | rfl | rfl | rfl | hc | hx
        · decide
        · decide
        · decide
        · decide
        · exact hlegal x (by simp [hc])
        · exact hlegal x (by simp [hx])
      · simp only [sanitizeTail]
        rw [if_neg hca, if_pos hjA]

/-- The sanitizer is the identity on canonical names of length at most 63. -/
theorem sanitizeCore_fixed (fb z : List Char) (h : goodCore z)
    (hlen : z.length ≤ 63) : sanitizeCore fb z = z := by
  obtain ⟨hne, hleg, hnd, hhead, hlast⟩ := h
  have h1 : z.map pyLowerChar = z :=
    map_id_of_mem z (fun c hc => pyLowerChar_id_of_legal (hleg c hc))
  have h2 : z.map replaceIllegal = z :=
    map_id_of_mem z (fun c hc => replaceIllegal_id_of_legal (hleg c hc))
  have h3 : collapseDashes z = z := collapseDashes_id hnd
  have h4 : stripDashes z = z := by
    unfold stripDashes
    rw [stripLead_id (isLowerAlpha_ne_dash hhead)]
    exact stripTrail_id (isLowerAlnum_ne_dash hlast)
  simp only [sanitizeCore, h1, h2, h3, h4]
  cases z with
  | nil => exact absurd rfl hne
  | cons c cs =>
    have hca : isLowerAlpha c = true := by simpa using hhead
    simp only [sanitizeTail]
    rw [if_pos hca, if_pos hlast]
    exact List.take_of_length_le hlen

theorem headD_append_left {y t : List Char} (h : y ≠ []) (d : Char) :
    (y ++ t).headD d = y.headD d := by
  cases y with
  | nil => exact absurd rfl h
  | cons a y2 => rfl

/-- The 63-character truncation of a canonical name is canonical again,
provided it does not end in a hyphen. -/
theorem goodCore_take_of_last_ne {z : List Char} (h : goodCore z)
    (hnd : (z.take 63).getLastD ' ' ≠ '-') : goodCore (z.take 63) := by
  obtain ⟨hne, hleg, hndd, hhead, hlast⟩ := h
  have hyne : z.take 63 ≠ [] := by
    apply List.length_pos.mp
    cases z with
    | nil => exact absurd rfl hne
    | cons c cs => rw [List.length_take]; simp [Nat.lt_min]
  refine ⟨hyne, fun x hx => hleg x (List.take_subset _ _ hx), ?_, ?_, ?_⟩
  · exact noDoubleDash_append_left _ (z.drop 63)
      (by rw [List.take_append_drop]; exact hndd)
  · rw [← @headD_append_left _ (z.drop 63) hyne ' ', List.take_append_drop]
    exact hhead
  · exact isLowerAlnum_of_legal
      (hleg _ (List.take_subset _ _ (getLastD_mem hyne ' '))) hnd

/-- The synthesized fallback name `job-<8 hex chars>` is canonical and
short. -/
theorem goodCore_fallback {fb : List Char} (hlen : fb.length = 8)
    (hhex : ∀ c ∈ fb, isLowerHex c = true) :
    goodCore ('j' :: 'o' :: 'b' :: '-' :: fb) ∧
      ('j' :: 'o' :: 'b' :: '-' :: fb).length ≤ 63 := by
  cases fb with
  | nil => simp at hlen
  | cons f0 f1 =>
    refine ⟨⟨by simp, ?_, ?_, rfl, ?_⟩, ?_⟩
    · intro x hx
      simp only [List.mem_cons] at hx
      rcases hx with rfl | rfl | rfl | rfl | hx
      · decide
      · decide
      · decide
      · decide
      · exact legalChar_of_alnum (isLowerAlnum_of_hex
          (hhex x (by simp only [List.mem_cons]; exact hx)))
    · exact noDoubleDash_job_dash (hex_ne_dash (hhex f0 (by simp)))
        (noDoubleDash_of_no_dash (fun c hc => hex_ne_dash (hhex c hc)))
    · rw [getLastD_job_dash]
      exact isLowerAlnum_of_hex (hhex _ (getLastD_mem (by simp) ' '))
    · simp only [List.length_cons] at hlen ⊢
      omega

set_option maxRecDepth 40000 in
/-- Claim C3, counterexample: the input of 62 letters `a`, a hyphen and a
letter `b` sanitizes to a 63-character name ending in a hyphen (the final
truncation re-introduces it), and a second application of the sanitizer
strips that hyphen, so `sanitize (sanitize x) ≠ sanitize x`. -/
theorem claim_C3_counterexample :
    _sanitize_job_name "deadbeef"
        (_sanitize_job_name "deadbeef"
          (String.mk (List.replicate 62 'a' ++ ['-', 'b']))) ≠
      _sanitize_job_name "deadbeef"
        (String.mk (List.replicate 62 'a' ++ ['-', 'b'])) := by
  decide

/-- Claim C3 as amended: the sanitizer is idempotent on every input whose
output does not end in a hyphen — in particular on every input whose
output is shorter than 63 characters, and on the fallback outputs
`job-<8 hex>`; the sole exception is an output whose 63-character
truncation cuts immediately after a hyphen, where a second application
strips that trailing hyphen. -/
theorem claim_C3_sanitize_idempotent (fb name : String)
    (hfb : fb.data.length = 8)
    (hhex : ∀ c ∈ fb.data, isLowerHex c = true)
    (hnd : (_sanitize_job_name fb name).data.getLastD ' ' ≠ '-') :
    _sanitize_job_name fb (_sanitize_job_name fb name) =
      _sanitize_job_name fb name := by
  unfold _sanitize_job_name at hnd ⊢
  dsimp only at hnd ⊢
  congr 1
  rcases sanitizeCore_structure fb.data name.data with hfall | ⟨z, hz, hy⟩
  · rw [hfall]
    obtain ⟨hg, hl⟩ := goodCore_fallback hfb hhex
    exact sanitizeCore_fixed _ _ hg hl
  · rw [hy] at hnd ⊢
    exact sanitizeCore_fixed _ _ (goodCore_take_of_last_ne hz hnd)
      (by rw [List.length_take]; exact min_le_left _ _)

/-- Witness for C3's amended theorem at the spec's own example input. -/
theorem claim_C3_sanitize_idempotent_witness :
    _sanitize_job_name "deadbeef" (_sanitize_job_name "deadbeef" " My Job!! ") =
      _sanitize_job_name "deadbeef" " My Job!! " :=
  claim_C3_sanitize_idempotent "deadbeef" " My Job!! " (by decide) (by decide)
    (by decide)

/-- Decidable matcher for the spec's regular expression
`[a-z][a-z0-9-]*[a-z0-9]` anchored at both ends (which forces length at
least two). -/
def matchesJobNameStrict (l : List Char) : Bool :=
  decide (2 ≤ l.length) && isLowerAlpha (l.headD ' ') &&
    ((l.drop 1).dropLast.all legalChar) && isLowerAlnum (l.getLastD ' ')

/-- Matcher for `[a-z]([a-z0-9-]*[a-z0-9])?` anchored at both ends: as the
strict form, but admitting a single-letter name. -/
def matchesJobNameLoose (l : List Char) : Bool :=
  decide (l ≠ []) && isLowerAlpha (l.headD ' ') &&
    ((l.drop 1).dropLast.all legalChar) && isLowerAlnum (l.getLastD ' ')

/-- The synthesized fallback shape `job-` followed by 8 lowercase
hexadecimal characters. -/
def isFallbackForm : List Char → Bool
  | 'j' :: 'o' :: 'b' :: '-' :: rest => decide (rest.length = 8) && rest.all isLowerHex
  | _ => false

theorem matchesLoose_intro {l : List Char} (hne : l ≠ [])
    (hhead : isLowerAlpha (l.headD ' ') = true)
    (hleg : ∀ x ∈ l, legalChar x = true)
    (hlast : isLowerAlnum (l.getLastD ' ') = true) :
    matchesJobNameLoose l = true := by
  simp only [matchesJobNameLoose, Bool.and_eq_true, decide_eq_true_eq]
  refine ⟨⟨⟨hne, hhead⟩, ?_⟩, hlast⟩
  rw [List.all_eq_true]
  exact fun x hx => hleg x (List.drop_subset _ _ (List.dropLast_subset _ hx))

/-- In a name without adjacent hyphens that ends in a hyphen, the
character before that hyphen is not a hyphen. -/
theorem noDoubleDash_dropLast_last {y : List Char} (h : noDoubleDash y = true)
    (hl : y.getLastD ' ' = '-') : y.dropLast.getLastD ' ' ≠ '-' := by
  induction y with
  | nil => simp at hl
  | cons a t ih =>
    cases t with
    | nil => simp
    | cons b t2 =>
      rw [List.dropLast_cons₂]
      rw [List.getLastD_cons] at hl
      have hl2 : (b :: t2).getLastD ' ' = '-' := by
        rw [@getLastD_irrel (b :: t2) (by simp) ' ' a]
        exact hl
      cases t2 with
      | nil =>
        have hb : b = '-' := by simpa using hl2
        rw [noDoubleDash_cons_cons, Bool.and_eq_true] at h
        simp only [List.dropLast_single, List.getLastD_cons, List.getLastD_nil]
        intro ha
        rw [ha, hb] at h
        simp at h
      | cons e t3 =>
        have ihx := ih (noDoubleDash_tail h) hl2
        rw [List.dropLast_cons₂] at ihx
        rw [List.dropLast_cons₂, List.getLastD_cons,
          @getLastD_irrel (b :: (e :: t3).dropLast) (by simp) a ' ']
        exact ihx

set_option maxRecDepth 40000 in
/-- Claim C4, counterexample: the single-letter input `a` sanitizes to
`a`, which neither matches the claimed expression
`^[a-z][a-z0-9-]*[a-z0-9]$` (that requires two characters) nor has the
fallback form; and the 64-character input of 62 `b`s, a hyphen and a `c`
sanitizes to a 63-character name ending in a hyphen, which matches
neither disjunct of the claim either. -/
theorem claim_C4_counterexample :
    (_sanitize_job_name "deadbeef" "a" = "a" ∧
     matchesJobNameStrict (_sanitize_job_name "deadbeef" "a").data = false ∧
     isFallbackForm (_sanitize_job_name "deadbeef" "a").data = false) ∧
    (matchesJobNameStrict (_sanitize_job_name "deadbeef"
        (String.mk (List.replicate 62 'b' ++ ['-', 'c']))).data = false ∧
     isFallbackForm (_sanitize_job_name "deadbeef"
        (String.mk (List.replicate 62 'b' ++ ['-', 'c']))).data = false ∧
     (_sanitize_job_name "deadbeef"
        (String.mk (List.replicate 62 'b' ++ ['-', 'c']))).data.getLastD ' '
       = '-') := by
  decide

/-- Claim C4 as amended: every sanitizer output is at most 63 characters
long and either matches `[a-z]([a-z0-9-]*[a-z0-9])?` (the claimed
expression relaxed to admit a single letter), or is the synthesized
fallback `job-<8 hex chars>`, or — exactly when the final truncation cuts
immediately after a hyphen — has length exactly 63, ends in a hyphen, and
matches the relaxed expression after dropping that final hyphen. -/
theorem claim_C4_sanitize_shape (fb name : String)
    (hfb : fb.data.length = 8)
    (hhex : ∀ c ∈ fb.data, isLowerHex c = true) :
    (matchesJobNameLoose (_sanitize_job_name fb name).data = true ∨
     isFallbackForm (_sanitize_job_name fb name).data = true ∨
     ((_sanitize_job_name fb name).data.length = 63 ∧
      (_sanitize_job_name fb name).data.getLastD ' ' = '-' ∧
      matchesJobNameLoose (_sanitize_job_name fb name).data.dropLast = true)) ∧
    (_sanitize_job_name fb name).data.length ≤ 63 := by
  unfold _sanitize_job_name
  dsimp only
  rcases sanitizeCore_structure fb.data name.data with hfall | ⟨z, hz, hy⟩
  · rw [hfall]
    refine ⟨Or.inr (Or.inl ?_), (goodCore_fallback hfb hhex).2⟩
    simp only [isFallbackForm, Bool.and_eq_true, decide_eq_true_eq]
    exact ⟨hfb, List.all_eq_true.mpr hhex⟩
  · rw [hy]
    have hlen63 : (z.take 63).length ≤ 63 := by
      rw [List.length_take]
      exact min_le_left _ _
    refine ⟨?_, hlen63⟩
    by_cases hL : (z.take 63).getLastD ' ' = '-'
    · obtain ⟨hne, hleg, hndd, hhead, hlast⟩ := hz
      have hgt : 63 < z.length := by
        by_contra hle
        push_neg at hle
        rw [List.take_of_length_le hle] at hL
        exact isLowerAlnum_ne_dash hlast hL
      have hyne : z.take 63 ≠ [] := by
        apply List.length_pos.mp
        rw [List.length_take]
        simp [Nat.lt_min]
        omega
      have hylen : (z.take 63).length = 63 := by
        rw [List.length_take]
        exact min_eq_left (le_of_lt hgt)
      have hynd : noDoubleDash (z.take 63) = true :=
        noDoubleDash_append_left _ (z.drop 63)
          (by rw [List.take_append_drop]; exact hndd)
      have hdl_ne : (z.take 63).dropLast ≠ [] := by
        apply List.length_pos.mp
        rw [List.length_dropLast, hylen]
        omega
      refine Or.inr (Or.inr ⟨hylen, hL, matchesLoose_intro hdl_ne ?_ ?_ ?_⟩)
      · have hd : (z.take 63).dropLast.headD ' ' = (z.take 63).headD ' ' := by
          conv_rhs => rw [← List.dropLast_append_getLast hyne]
          rw [headD_append_left hdl_ne]
        rw [hd, ← @headD_append_left _ (z.drop 63) hyne ' ',
          List.take_append_drop]
        exact hhead
      · exact fun x hx => hleg x (List.take_subset _ _ (List.dropLast_subset _ hx))
      · refine isLowerAlnum_of_legal ?_ (noDoubleDash_dropLast_last hynd hL)
        exact hleg _ (List.take_subset _ _
          (List.dropLast_subset _ (getLastD_mem hdl_ne ' ')))
    · have hg := goodCore_take_of_last_ne hz hL
      obtain ⟨hne, hleg, hndd, hhead, hlast⟩ := hg
      exact Or.inl (matchesLoose_intro hne hhead hleg hlast)

/-- Witness for C4's amended theorem at the spec's example input. -/
theorem claim_C4_sanitize_shape_witness :
    (matchesJobNameLoose (_sanitize_job_name "deadbeef" " My Job!! ").data = true ∨
     isFallbackForm (_sanitize_job_name "deadbeef" " My Job!! ").data = true ∨
     ((_sanitize_job_name "deadbeef" " My Job!! ").data.length = 63 ∧
      (_sanitize_job_name "deadbeef" " My Job!! ").data.getLastD ' ' = '-' ∧
      matchesJobNameLoose
        (_sanitize_job_name "deadbeef" " My Job!! ").data.dropLast = true)) ∧
    (_sanitize_job_name "deadbeef" " My Job!! ").data.length ≤ 63 :=
  claim_C4_sanitize_shape "deadbeef" " My Job!! " (by decide) (by decide)

/-! Model of `submit_dataflow_template`
(`dataflow_agent/tools/dataflow_template_tools.py`, lines 275-397).  The
two JSON string arguments are passed already parsed (`json.loads` results);
a parse failure raises and is converted by the outer `except` into a
generic failure, outside the scope of the claims.  Subprocess execution is
an oracle argument. -/

/-- Parsed JSON values as produced by `json.loads` (floats do not occur in
the inputs the claims range over and are omitted). -/
inductive JValue where
  | jstr (s : String)
  | jnum (n : Int)
  | jbool (b : Bool)
  | jnull
  | jarr (elems : List JValue)
  | jobj (fields : List (String × JValue))

/-- Python truthiness of a parsed JSON value. -/
def pyTruthy : JValue → Bool
  | .jstr s => decide (s ≠ "")
  | .jnum n => decide (n ≠ 0)
  | .jbool b => b
  | .jnull => false
  | .jarr l => !l.isEmpty
  | .jobj f => !f.isEmpty

/-- Python `dict.get` on a parsed JSON object (keys are unique, so the
first match is the match). -/
def jGet (fields : List (String × JValue)) (k : String) : Option JValue :=
  match fields with
  | [] => none
  | kv :: rest => if kv.1 = k then some kv.2 else jGet rest k

mutual
/-- Model of Python `repr` on parsed JSON values (single-quote style, as
for names without quotes; no claim depends on quote switching). -/
def pyRepr : JValue → String
  | .jstr s => pyQuote ++ s ++ pyQuote
  | .jnum n => toString n
  | .jbool b => if b then "True" else "False"
  | .jnull => "None"
  | .jarr elems => "[" ++ joinStr ", " (pyReprList elems) ++ "]"
  | .jobj fields => "\x7b" ++ joinStr ", " (pyReprFields fields) ++ "\x7d"

def pyReprList : List JValue → List String
  | [] => []
  | v :: vs => pyRepr v :: pyReprList vs

def pyReprFields : List (String × JValue) → List String
  | [] => []
  | kv :: kvs =>
    (pyQuote ++ kv.1 ++ pyQuote ++ ": " ++ pyRepr kv.2) :: pyReprFields kvs
end

/-- Model of Python `str()` on a parsed JSON value, as interpolated by
`f"{key}={value}"`. -/
def pyStr : JValue → String
  | .jstr s => s
  | v => pyRepr v

/-- Extraction of a JSON array of strings (the well-typed shape of the
`required`/`optional` schema entries). -/
def strListOfAux : List JValue → Option (List String)
  | [] => some []
  | .jstr s :: rest => (strListOfAux rest).map (fun l => s :: l)
  | _ => none

def strListOf : JValue → Option (List String)
  | .jarr elems => strListOfAux elems
  | _ => none

/-- The call `validate_input_params(params_to_validate, user_input_dict)`
made inside `submit_dataflow_template`, on JSON-typed arguments.  When the
schema is an object whose `required`/`optional` entries (defaulting to
`[]`, as `.get` does) are arrays of strings and the user input is an
object, this is the typed validator above.  Any other shape raises inside
the validator's own `try` (`+` on non-lists, `.keys()` on a non-dict,
`set()` of unhashables) and produces its generic failure result; the
interpolated `str(err)` text is abstracted to a fixed marker. -/
def jValidate (schema : JValue) (user : JValue) : VResult :=
  match schema, user with
  | .jobj sf, .jobj uf =>
    match strListOf ((jGet sf "required").getD (.jarr [])),
        strListOf ((jGet sf "optional").getD (.jarr [])) with
    | some req, some opt =>
      DataflowTools.validate_input_params ⟨req, opt⟩
        (uf.map (fun kv => (kv.1, pyStr kv.2)))
    | _, _ =>
      ⟨"failed", "An unexpected error occurred during validation - type error"⟩
  | _, _ =>
    ⟨"failed", "An unexpected error occurred during validation - type error"⟩

/-- The hardcoded delimiter of the gcloud parameter encoding (the source's
`delemeter` variable, line 365). -/
def delemeter : String := "~"

/-- Lines 367-370: `key=value` pairs joined by the fixed delimiter, with
the gcloud caret delimiter declaration `^~^` prefixed. -/
def parametersStr (pairs : List (String × String)) : String :=
  "^" ++ delemeter ++ "^" ++
    joinStr delemeter (pairs.map (fun kv => kv.1 ++ "=" ++ kv.2))

/-- The fixed label argument (line 377). -/
def default_labels : String := "source=plumber"

/-- The flex-template command shape (line 380); note it has no
staging-location component at all. -/
def flexRunCmd (job_name gcp_project region template_gcs_path
    parameters_str : String) : String :=
  "gcloud dataflow flex-template run " ++ job_name ++
    " --project=" ++ gcp_project ++ " --region=" ++ region ++
    " --template-file-gcs-location=" ++ template_gcs_path ++
    " --parameters \"" ++ parameters_str ++
    "\" --additional-user-labels=" ++ default_labels

/-- The classic command shape (line 382), carrying the staging location. -/
def classicRunCmd (job_name gcp_project region template_gcs_path
    parameters_str gcs_staging_location : String) : String :=
  "gcloud dataflow jobs run " ++ job_name ++
    " --project=" ++ gcp_project ++ " --region=" ++ region ++
    " --gcs-location=" ++ template_gcs_path ++
    " --parameters \"" ++ parameters_str ++
    "\" --staging-location=" ++ gcs_staging_location ++
    " --additional-user-labels=" ++ default_labels

/-- Line 334-338: the artifact path is the custom path when supplied
(non-empty), else the template definition's `template_gcs_path` entry. -/
def resolvedTemplatePath (f : List (String × JValue))
    (custom_gcs_path : String) : Option JValue :=
  if custom_gcs_path ≠ "" then some (.jstr custom_gcs_path)
  else jGet f "template_gcs_path"

/-- Lines 346-363: the parameter-validation gate, returning the failure
comment when validation applies and fails. -/
def submitValidationFailure (f : List (String × JValue)) (user : JValue)
    (custom_gcs_path : String) : Option String :=
  if custom_gcs_path = "" then
    let params_to_validate := (jGet f "params").getD (.jobj [])
    if ¬ pyTruthy params_to_validate then
      some "Job could not be submitted because the template definition is missing the \"params\" key."
    else
      let res := jValidate params_to_validate user
      if res.validation_result ≠ "success" then
        some ("Job could not be submitted due to a parameter validation error: " ++ res.comment)
      else none
  else none

/-- Line 373-376: the flex/classic strategy switch on the resolved string
path and the declared type (`dict.get("type") == "FLEX"` is true exactly
for the string value `FLEX`). -/
def isFlexCond (f : List (String × JValue)) (p : String) : Bool :=
  hasSeg "/flex/".data p.data ||
    (match jGet f "type" with
      | some (.jstr t) => decide (t = "FLEX")
      | _ => false)

/-- Everything `submit_dataflow_template` does before running a
subprocess: either a structured early failure (the returned dict's
comment) or the fully assembled gcloud command. -/
inductive SubmitStep where
  | earlyFail (comment : String)
  | execCmd (cmd : String)
deriving DecidableEq

/-- Lines 313-382 of `submit_dataflow_template`: list unwrapping, object
check, path resolution and truthiness check, validation gate, parameter
encoding, and command assembly.  A non-object user input at the encoding
step, or a truthy non-string path at the `in` test, raises and is caught
by the outer `except`; the interpolated `str(err)` is abstracted to fixed
markers. -/
def submit_prepare (job_name : String) (user_input_dict : JValue)
    (template_definition : JValue)
    (gcp_project region gcs_staging_location custom_gcs_path : String) :
    SubmitStep :=
  let unwrapped : Option JValue :=
    match template_definition with
    | .jarr (t :: _) => some t
    | .jarr [] => none
    | v => some v
  match unwrapped with
  | none =>
    .earlyFail "Job could not be submitted because the template definition was an empty list."
  | some tdv =>
    match tdv with
    | .jobj f =>
      match resolvedTemplatePath f custom_gcs_path with
      | none =>
        .earlyFail "Job could not be submitted because the \"template_gcs_path\" key was not found."
      | some pv =>
        if ¬ pyTruthy pv then
          .earlyFail "Job could not be submitted because the \"template_gcs_path\" key was not found."
        else
          match submitValidationFailure f user_input_dict custom_gcs_path with
          | some msg => .earlyFail msg
          | none =>
            match user_input_dict with
            | .jobj uf =>
              let parameters_str :=
                parametersStr (uf.map (fun kv => (kv.1, pyStr kv.2)))
              match pv with
              | .jstr p =>
                if isFlexCond f p then
                  .execCmd (flexRunCmd job_name gcp_project region p parameters_str)
                else
                  .execCmd (classicRunCmd job_name gcp_project region p
                    parameters_str gcs_staging_location)
              | _ =>
                .earlyFail "An unexpected error occurred: template_gcs_path is not a string"
            | _ =>
              .earlyFail "An unexpected error occurred: input params is not a JSON object"
    | _ =>
      .earlyFail "Job could not be submitted because the processed template definition is not a valid dictionary (JSON object)."

/-- The returned dictionary of `submit_dataflow_template`. -/
structure SubmitOut where
  status : String
  comment : String
  stdout : Option String
deriving DecidableEq

/-- Lines 384-397: run the assembled command (`run` is the subprocess
oracle: `none` models an exception while launching, otherwise exit code,
stdout and stderr).  `check=True` turns a nonzero exit into a
`CalledProcessError`, caught by the outer `except`; a zero exit is
reported as success with the captured stdout, with no inspection of the
output whatsoever. -/
def submit_dataflow_template (run : String → Option (Int × String × String))
    (job_name : String) (user_input_dict template_definition : JValue)
    (gcp_project region gcs_staging_location custom_gcs_path : String) :
    SubmitOut :=
  match submit_prepare job_name user_input_dict template_definition
      gcp_project region gcs_staging_location custom_gcs_path with
  | .earlyFail c => ⟨"failed", c, none⟩
  | .execCmd cmd =>
    match run cmd with
    | some (0, out, _) => ⟨"success", "Job Submitted Successfully", some out⟩
    | some (_, _, _) =>
      ⟨"failed", "An unexpected error occurred: the gcloud command returned a non-zero exit status", none⟩
    | none =>
      ⟨"failed", "An unexpected error occurred: subprocess exception", none⟩

/-- Discriminator for the two command shapes: a command is flex-shaped
when it begins with the flex-template invocation prefix. -/
def isFlexShape (cmd : String) : Bool :=
  leadsSeg "gcloud dataflow flex-template run ".data cmd.data

theorem leadsSeg_append_self : ∀ (l t : List Char), leadsSeg l (l ++ t) = true := by
  intro l t
  induction l with
  | nil => cases t <;> rfl
  | cons a l2 ih => simp [leadsSeg, ih]

theorem isFlexShape_flexRunCmd (a b c d e : String) :
    isFlexShape (flexRunCmd a b c d e) = true := by
  simp only [isFlexShape, flexRunCmd, String.data_append, List.append_assoc]
  exact leadsSeg_append_self _ _

theorem isFlexShape_classicRunCmd (a b c d e f : String) :
    isFlexShape (classicRunCmd a b c d e f) = false := by
  simp only [isFlexShape, classicRunCmd, String.data_append, List.append_assoc]
  simp [leadsSeg]

theorem isFlexCond_iff (f : List (String × JValue)) (p : String) :
    isFlexCond f p = true ↔
      (hasSeg "/flex/".data p.data = true ∨ jGet f "type" = some (.jstr "FLEX")) := by
  simp only [isFlexCond, Bool.or_eq_true]
  apply or_congr Iff.rfl
  cases hj : jGet f "type" with
  | none => simp
  | some v => cases v <;> simp

/-- Claim C5: when `submit_dataflow_template` reaches command assembly
with resolved string path `p`, the command is flex-shaped exactly when
`p` contains `/flex/` or the template's declared `type` is the string
`FLEX`; under the condition it is the flex command (whose definition has
no staging-location component, so the assembled command is the same for
every staging location), and otherwise the classic command carrying the
staging location. -/
theorem claim_C5_flex_strategy
    (job_name gcp_project region gcs_staging_location custom_gcs_path p c : String)
    (uf f : List (String × JValue))
    (hp : resolvedTemplatePath f custom_gcs_path = some (.jstr p))
    (hc : submit_prepare job_name (.jobj uf) (.jobj f) gcp_project region
        gcs_staging_location custom_gcs_path = .execCmd c) :
    (isFlexShape c = true ↔
      (hasSeg "/flex/".data p.data = true ∨ jGet f "type" = some (.jstr "FLEX"))) ∧
    ((hasSeg "/flex/".data p.data = true ∨ jGet f "type" = some (.jstr "FLEX")) →
      c = flexRunCmd job_name gcp_project region p
        (parametersStr (uf.map (fun kv => (kv.1, pyStr kv.2))))) ∧
    (¬ (hasSeg "/flex/".data p.data = true ∨ jGet f "type" = some (.jstr "FLEX")) →
      c = classicRunCmd job_name gcp_project region p
        (parametersStr (uf.map (fun kv => (kv.1, pyStr kv.2)))) gcs_staging_location) ∧
    ((hasSeg "/flex/".data p.data = true ∨ jGet f "type" = some (.jstr "FLEX")) →
      ∀ s2, submit_prepare job_name (.jobj uf) (.jobj f) gcp_project region
          s2 custom_gcs_path = .execCmd c) := by
  simp only [submit_prepare, hp] at hc
  by_cases hpe : pyTruthy (.jstr p) = true
  · rw [if_neg (by rw [hpe]; intro h; exact h rfl)] at hc
    cases hv : submitValidationFailure f (.jobj uf) custom_gcs_path with
    | some msg => rw [hv] at hc; cases hc
    | none =>
      rw [hv] at hc
      by_cases hflex : isFlexCond f p = true
      · rw [if_pos hflex] at hc
        injection hc with hc2
        subst hc2
        rw [isFlexCond_iff] at hflex
        refine ⟨?_, fun _ => rfl, fun hn => absurd hflex hn, fun _ s2 => ?_⟩
        · rw [isFlexShape_flexRunCmd]
          exact iff_of_true rfl hflex
        · simp only [submit_prepare, hp]
          rw [if_neg (by rw [hpe]; intro h; exact h rfl), hv,
            if_pos ((isFlexCond_iff f p).mpr hflex)]
      · rw [if_neg hflex] at hc
        injection hc with hc2
        subst hc2
        rw [isFlexCond_iff] at hflex
        refine ⟨?_, fun h => absurd h hflex, fun _ => rfl, fun h => absurd h hflex⟩
        rw [isFlexShape_classicRunCmd]
        exact iff_of_false (by simp) hflex
  · rw [if_pos (by simpa using hpe)] at hc
    cases hc

/-- Witness for C5 at a concrete flex template (`type: FLEX` and a path
containing `/flex/`): the assembled command is the flex shape, it is
unchanged when the staging location changes, and it satisfies the shape
discriminator. -/
theorem claim_C5_flex_strategy_witness :
    submit_prepare "job" (.jobj []) (.jobj [("template_gcs_path", .jstr "gs://bkt/flex/T"),
        ("type", .jstr "FLEX"),
        ("params", .jobj [("required", .jarr []), ("optional", .jarr [])])])
      "proj" "r" "gs://other-staging" "" =
      .execCmd (flexRunCmd "job" "proj" "r" "gs://bkt/flex/T" (parametersStr [])) ∧
    isFlexShape (flexRunCmd "job" "proj" "r" "gs://bkt/flex/T" (parametersStr [])) = true := by
  have h := claim_C5_flex_strategy "job" "proj" "r" "gs://stg" "" "gs://bkt/flex/T"
    (flexRunCmd "job" "proj" "r" "gs://bkt/flex/T" (parametersStr []))
    [] [("template_gcs_path", .jstr "gs://bkt/flex/T"), ("type", .jstr "FLEX"),
      ("params", .jobj [("required", .jarr []), ("optional", .jarr [])])]
    rfl rfl
  refine ⟨?_, h.1.mpr (Or.inl (by decide))⟩
  have h2 := h.2.2.2 (Or.inl (by decide)) "gs://other-staging"
  simpa using h2

set_option maxRecDepth 4000 in
/-- Claim C10, counterexample: wrapping a template definition in two
levels of list is not the same as supplying the inner list's first
element: `[[T]]` unwraps once to `[T]`, which is rejected as not a JSON
object, while supplying `[T]` directly unwraps to `T` and proceeds. -/
theorem claim_C10_counterexample :
    submit_prepare "job" (.jobj [])
        (.jarr [.jarr [.jobj [("template_gcs_path", .jstr "gs://bkt/templates/T"),
          ("params", .jobj [("required", .jarr []), ("optional", .jarr [])])]]])
        "proj" "r" "gs://stg" "" ≠
      submit_prepare "job" (.jobj [])
        (.jarr [.jobj [("template_gcs_path", .jstr "gs://bkt/templates/T"),
          ("params", .jobj [("required", .jarr []), ("optional", .jarr [])])]])
        "proj" "r" "gs://stg" "" := by
  decide

/-- Claim C10 as amended: when the parsed template definition is a
non-empty JSON list whose first element is not itself a list, submission
behaves exactly as if that first element alone had been supplied (later
elements have no effect); an empty list yields the structured empty-list
failure, and a non-list non-object value yields the structured
not-an-object failure — in both failure cases no command is executed,
whatever the subprocess oracle would return. -/
theorem claim_C10_list_unwrap
    (job_name gcp_project region gcs_staging_location custom_gcs_path : String)
    (u t : JValue) (rest : List JValue)
    (hnarr : ∀ l, t ≠ .jarr l) :
    submit_prepare job_name u (.jarr (t :: rest)) gcp_project region
        gcs_staging_location custom_gcs_path =
      submit_prepare job_name u t gcp_project region
        gcs_staging_location custom_gcs_path ∧
    (∀ run, submit_dataflow_template run job_name u (.jarr [])
        gcp_project region gcs_staging_location custom_gcs_path =
      ⟨"failed", "Job could not be submitted because the template definition was an empty list.", none⟩) ∧
    (∀ v : JValue, (∀ g, v ≠ .jobj g) → (∀ l, v ≠ .jarr l) →
      ∀ run, submit_dataflow_template run job_name u v gcp_project region
          gcs_staging_location custom_gcs_path =
        ⟨"failed", "Job could not be submitted because the processed template definition is not a valid dictionary (JSON object).", none⟩) := by
  refine ⟨?_, fun run => rfl, ?_⟩
  · cases t with
    | jarr l => exact absurd rfl (hnarr l)
    | jstr s => rfl
    | jnum n => rfl
    | jbool b => rfl
    | jnull => rfl
    | jobj g => rfl
  · intro v hnobj hnarr2 run
    cases v with
    | jarr l => exact absurd rfl (hnarr2 l)
    | jobj g => exact absurd rfl (hnobj g)
    | jstr s => rfl
    | jnum n => rfl
    | jbool b => rfl
    | jnull => rfl

/-- Witness for C10's amended theorem at concrete inputs: a list-wrapped
template with a trailing junk element behaves as the bare template; the
empty list and a number fail with the structured comments. -/
theorem claim_C10_list_unwrap_witness :
    submit_prepare "job" (.jobj [])
        (.jarr [.jobj [("template_gcs_path", .jstr "gs://b/T"),
          ("params", .jobj [("required", .jarr [])])], .jnull])
        "proj" "r" "gs://stg" "" =
      submit_prepare "job" (.jobj [])
        (.jobj [("template_gcs_path", .jstr "gs://b/T"),
          ("params", .jobj [("required", .jarr [])])])
        "proj" "r" "gs://stg" "" ∧
    submit_dataflow_template (fun _ => some (0, "", "")) "job" (.jobj [])
        (.jarr []) "proj" "r" "gs://stg" "" =
      ⟨"failed", "Job could not be submitted because the template definition was an empty list.", none⟩ ∧
    submit_dataflow_template (fun _ => some (0, "", "")) "job" (.jobj [])
        (.jnum 5) "proj" "r" "gs://stg" "" =
      ⟨"failed", "Job could not be submitted because the processed template definition is not a valid dictionary (JSON object).", none⟩ := by
  have h := claim_C10_list_unwrap "job" "proj" "r" "gs://stg" "" (.jobj [])
    (.jobj [("template_gcs_path", .jstr "gs://b/T"),
      ("params", .jobj [("required", .jarr [])])])
    [.jnull] (fun l hl => by cases hl)
  exact ⟨h.1, h.2.1 _, h.2.2 (.jnum 5) (fun g hg => by cases hg)
    (fun l hl => by cases hl) _⟩

/-- Model of Python `str.split(sep)` for a one-character separator, on
decoded characters (`"".split(sep)` gives `[""]`, matching the base
case). -/
def pySplitChar (c : Char) : List Char → List (List Char)
  | [] => [[]]
  | x :: xs =>
    let r := pySplitChar c xs
    if x = c then [] :: r
    else
      match r with
      | [] => [[x]]
      | g :: gs => (x :: g) :: gs

/-- Character-level join with a separator segment, the image of `joinStr`
under `String.data`. -/
def joinWithSeg (sep : List Char) : List (List Char) → List Char
  | [] => []
  | [x] => x
  | x :: xs => x ++ sep ++ joinWithSeg sep xs

theorem data_joinStr (sep : String) :
    ∀ (l : List String), (joinStr sep l).data = joinWithSeg sep.data (l.map String.data) := by
  intro l
  induction l with
  | nil => rfl
  | cons x xs ih =>
    cases xs with
    | nil => rfl
    | cons y ys =>
      show (x ++ sep ++ joinStr sep (y :: ys)).data = _
      rw [String.data_append, String.data_append, ih]
      rfl

theorem pySplitChar_no_sep {c : Char} :
    ∀ {l : List Char}, c ∉ l → pySplitChar c l = [l] := by
  intro l
  induction l with
  | nil => intro _; rfl
  | cons a xs ih =>
    intro h
    have ha : ¬ a = c := fun hac => h (hac ▸ List.mem_cons_self a xs)
    have hxs : c ∉ xs := fun hc => h (List.mem_cons_of_mem a hc)
    simp only [pySplitChar, ih hxs]
    rw [if_neg ha]

theorem pySplitChar_append {c : Char} :
    ∀ {x : List Char} {l : List Char}, c ∉ x →
      pySplitChar c (x ++ c :: l) = x :: pySplitChar c l := by
  intro x
  induction x with
  | nil =>
    intro l _
    show pySplitChar c (c :: l) = [] :: pySplitChar c l
    simp [pySplitChar]
  | cons a xs ih =>
    intro l h
    have ha : ¬ a = c := fun hac => h (hac ▸ List.mem_cons_self a xs)
    have hxs : c ∉ xs := fun hc => h (List.mem_cons_of_mem a hc)
    show pySplitChar c (a :: (xs ++ c :: l)) = (a :: xs) :: pySplitChar c l
    simp only [pySplitChar, ih hxs]
    rw [if_neg ha]

theorem pySplitChar_joinWithSeg {c : Char} :
    ∀ {parts : List (List Char)}, (∀ p ∈ parts, c ∉ p) → parts ≠ [] →
      pySplitChar c (joinWithSeg [c] parts) = parts := by
  intro parts
  induction parts with
  | nil => intro _ h; exact absurd rfl h
  | cons p rest ih =>
    intro h _
    cases rest with
    | nil => exact pySplitChar_no_sep (h p (by simp))
    | cons q rest2 =>
      show pySplitChar c (p ++ [c] ++ joinWithSeg [c] (q :: rest2)) = _
      rw [List.append_assoc]
      show pySplitChar c (p ++ c :: joinWithSeg [c] (q :: rest2)) = _
      rw [pySplitChar_append (h p (by simp))]
      rw [ih (fun r hr => h r (by simp [hr])) (by simp)]

/-- Claim C7, counterexample: the delimiter is the fixed character `~`
(declared to gcloud as `^~^`), not a character chosen to avoid the
values: the mapping `{"a": "1~b=2"}` — whose value contains the delimiter
— encodes to exactly the same parameter string as the distinct mapping
`{"a": "1", "b": "2"}`, so values containing the delimiter are not
transmitted intact. -/
theorem claim_C7_counterexample :
    parametersStr [("a", "1~b=2")] = parametersStr [("a", "1"), ("b", "2")] ∧
    [("a", "1~b=2")] ≠ [("a", "1"), ("b", "2")] ∧
    '~' ∈ "1~b=2".data ∧
    (parametersStr [("a", "1~b=2")]).data.getD 1 ' ' = '~' := by
  decide

/-- Claim C7 as amended: the encoded string is the caret declaration
`^~^` followed by the `key=value` pairs joined with the fixed delimiter
`~`; whenever no key or value contains `~`, splitting the joined part on
`~` recovers exactly the `key=value` pairs (so commas and other
characters are transmitted intact), but a key or value containing `~`
itself collides with the delimiter. -/
theorem claim_C7_param_encoding (pairs : List (String × String))
    (hne : pairs ≠ [])
    (h : ∀ kv ∈ pairs, '~' ∉ kv.1.data ∧ '~' ∉ kv.2.data) :
    parametersStr pairs =
      "^~^" ++ joinStr "~" (pairs.map (fun kv => kv.1 ++ "=" ++ kv.2)) ∧
    pySplitChar '~' (joinStr "~" (pairs.map (fun kv => kv.1 ++ "=" ++ kv.2))).data =
      pairs.map (fun kv => (kv.1 ++ "=" ++ kv.2).data) := by
  constructor
  · rfl
  · rw [data_joinStr]
    have hmap : (pairs.map (fun kv => kv.1 ++ "=" ++ kv.2)).map String.data
        = pairs.map (fun kv => (kv.1 ++ "=" ++ kv.2).data) := by
      rw [List.map_map]
      rfl
    rw [hmap, show "~".data = ['~'] from rfl]
    apply pySplitChar_joinWithSeg
    · intro p hp
      rcases List.mem_map.mp hp with ⟨kv, hkv, rfl⟩
      rw [String.data_append, String.data_append]
      intro hmem
      rcases List.mem_append.mp hmem with hm | hm
      · rcases List.mem_append.mp hm with hm2 | hm2
        · exact (h kv hkv).1 hm2
        · simp at hm2
      · exact (h kv hkv).2 hm
    · intro hq
      exact hne (by simpa using hq)

/-- Witness for C7's amended theorem on a mapping whose first value
contains a comma. -/
theorem claim_C7_param_encoding_witness :
    parametersStr [("key", "a,b"), ("k2", "v2")] =
      "^~^" ++ joinStr "~"
        ([(("key" : String), ("a,b" : String)), (("k2" : String), ("v2" : String))].map
          (fun kv => kv.1 ++ "=" ++ kv.2)) ∧
    pySplitChar '~' (joinStr "~"
        ([(("key" : String), ("a,b" : String)), (("k2" : String), ("v2" : String))].map
          (fun kv => kv.1 ++ "=" ++ kv.2))).data =
      [(("key" : String), ("a,b" : String)), (("k2" : String), ("v2" : String))].map
        (fun kv => (kv.1 ++ "=" ++ kv.2).data) :=
  claim_C7_param_encoding [("key", "a,b"), ("k2", "v2")] (by decide) (by decide)

/-! Model of `generate_and_run_beam_pipeline`
(`dataflow_agent/tools/pipeline_utils.py`, lines 92-305).  The subprocess
(per mode), the GCS upload, and the two `uuid4().hex[:8]` draws are oracle
data in `PipeWorld`; the filesystem is the explicit one-slot state `FS`
for the transient `temp_pipeline_<uuid>.py` file.  The constructed
subprocess command (lines 150-168) is consumed only by the subprocess
itself and is therefore not part of the observable results. -/

/-- Exact-count digit matcher for the `\d{n}` pieces of the job-id
pattern (`\d` is modelled on ASCII; gcloud output is ASCII). -/
def takeDigits : Nat → List Char → Option (List Char × List Char)
  | 0, l => some ([], l)
  | _ + 1, [] => none
  | n + 1, c :: cs =>
    if isDigitChar c then
      match takeDigits n cs with
      | some (m, r) => some (c :: m, r)
      | none => none
    else none

/-- One-literal-character matcher. -/
def litChar (c : Char) : List Char → Option (List Char)
  | [] => none
  | x :: xs => if x = c then some xs else none

/-- Anchored match of `\d{4}-\d{2}-\d{2}_\d{2}_\d{2}_\d{2}-\d+` at the
head of the list, returning the (greedy) matched text. -/
def matchIdAt (l : List Char) : Option (List Char) :=
  (takeDigits 4 l).bind fun (d1, r1) =>
  (litChar '-' r1).bind fun r2 =>
  (takeDigits 2 r2).bind fun (d2, r3) =>
  (litChar '-' r3).bind fun r4 =>
  (takeDigits 2 r4).bind fun (d3, r5) =>
  (litChar '_' r5).bind fun r6 =>
  (takeDigits 2 r6).bind fun (d4, r7) =>
  (litChar '_' r7).bind fun r8 =>
  (takeDigits 2 r8).bind fun (d5, r9) =>
  (litChar '_' r9).bind fun r10 =>
  (takeDigits 2 r10).bind fun (d6, r11) =>
  (litChar '-' r11).bind fun r12 =>
  let ds := r12.takeWhile isDigitChar
  if ds = [] then none
  else some (d1 ++ '-' :: d2 ++ '-' :: d3 ++ '_' :: d4 ++ '_' :: d5 ++ '_' :: d6 ++ '-' :: ds)

/-- `re.search` of the job-id pattern: leftmost match (the pattern has no
alternation, so position-wise first match is regex semantics). -/
def findIdIn : List Char → Option (List Char)
  | [] => none
  | x :: xs =>
    match matchIdAt (x :: xs) with
    | some m => some m
    | none => findIdIn xs

def findJobId (s : String) : Option String :=
  (findIdIn s.data).map (fun m => (⟨m⟩ : String))

/-- The single-quote character of the detail patterns `id: '([^']*)'`. -/
def sqChar : Char := Char.ofNat 39

/-- `re.search` of a pattern `<pre>'([^']*)'`: find the leftmost position
where the literal prefix plus opening quote matches and a closing quote
follows, returning the quoted capture. -/
def captureQuoted (pre : List Char) : List Char → Option (List Char)
  | [] => none
  | x :: xs =>
    if leadsSeg (pre ++ [sqChar]) (x :: xs) then
      let rest := (x :: xs).drop (pre.length + 1)
      let body := rest.takeWhile (fun c => !decide (c = sqChar))
      if body.length < rest.length then some body
      else captureQuoted pre xs
    else captureQuoted pre xs

/-- Lexicographic comparison on code points, modelling Python string `<`
as used by `sorted` (the sorted keys here are distinct, so only the key
comparison matters). -/
def strLtChars : List Char → List Char → Bool
  | [], [] => false
  | [], _ :: _ => true
  | _ :: _, [] => false
  | x :: xs, y :: ys =>
    if x.toNat < y.toNat then true
    else if y.toNat < x.toNat then false
    else strLtChars xs ys

def pyStrLt (a b : String) : Bool := strLtChars a.data b.data

def insertPair (kv : String × String) :
    List (String × String) → List (String × String)
  | [] => [kv]
  | h :: t => if pyStrLt kv.1 h.1 then kv :: h :: t else h :: insertPair kv t

/-- Model of `sorted(job_details.items())` (insertion sort; stable, and
the keys are distinct). -/
def sortPairs : List (String × String) → List (String × String)
  | [] => []
  | h :: t => insertPair h (sortPairs t)

/-- Python `str.replace(pat, "")`, removing every occurrence left to
right (used for `gcs_bucket_path.replace("gs://", "")`). -/
def removeSeg (pat : List Char) : List Char → List Char
  | [] => []
  | x :: xs =>
    if h : leadsSeg pat (x :: xs) = true ∧ pat ≠ [] then
      removeSeg pat ((x :: xs).drop pat.length)
    else x :: removeSeg pat xs
termination_by l => l.length
decreasing_by
  · simp only [List.length_drop]
    have : 0 < pat.length := List.length_pos.mpr h.2
    simp only [List.length_cons]
    omega
  · simp

/-- Lines 254-265: the archive path
`gs://<bucket>/<base>/generated_pipelines/<job>-<hex>.py` derived from
the bucket path, the sanitized job name and the random suffix
(`os.path.join` with a possibly empty first component; the non-empty
components here never end in a slash). -/
def gcsArchivePath (gcs_bucket_path sanitized hex8 : String) : String :=
  let stripped := removeSeg "gs://".data gcs_bucket_path.data
  let segs := pySplitChar '/' stripped
  let bucket_name : List Char := segs.headD []
  let path_parts := segs.tail
  let base_prefix := joinWithSeg ['/'] (path_parts.filter (fun seg => !seg.isEmpty))
  let script_filename := sanitized.data ++ '-' :: hex8.data ++ ".py".data
  let gcs_path_str :=
    (if base_prefix.isEmpty then [] else base_prefix ++ ['/']) ++
      "generated_pipelines/".data ++ script_filename
  ⟨"gs://".data ++ bucket_name ++ '/' :: gcs_path_str⟩

/-- Lines 239-250: the `job_details` dictionary — always `name` and `id`;
`clientRequestId` and `createTime` only when the `id: '...'` detail
pattern matched. -/
def jobDetails (sanitized jid output : String) : List (String × String) :=
  let id_match := captureQuoted "id: ".data output.data
  let cr_match := captureQuoted "clientRequestId: ".data output.data
  let ct_match := captureQuoted "createTime: ".data output.data
  [("name", sanitized), ("id", jid)] ++
    (match id_match with
      | some _ =>
        (match cr_match with
          | some c => [("clientRequestId", (⟨c⟩ : String))]
          | none => []) ++
        (match ct_match with
          | some c => [("createTime", (⟨c⟩ : String))]
          | none => [])
      | none => [])

/-- Lines 269-290: the human-readable report joined from its lines. -/
def pipeReport (sanitized jid output : String) (gcs_path : Option String)
    (gcs_error : Option String) : String :=
  joinStr "\n"
    (["Successfully launched Dataflow job " ++ pyQuote ++ sanitized ++ pyQuote ++ ".",
      "Job Details:"] ++
      (sortPairs (jobDetails sanitized jid output)).map
        (fun kv => "  " ++ kv.1 ++ ": " ++ kv.2) ++
      (match gcs_path with
        | some p => ["\nThe pipeline script was saved to " ++ p]
        | none => []) ++
      (match gcs_error with
        | some e => ["\nWARNING: Failed to save the script to GCS. Error: " ++ e]
        | none => []))

/-- Exceptions reaching the `except` clauses of the pipeline builder. -/
inductive PyExc where
  | calledProc (rc : Int) (output : String)
  | other (msg : String)
deriving DecidableEq

/-- Oracle for the streaming subprocess: an exception at creation, the
decoded stdout lines watched by the incremental reader, the value of
`process.returncode` when no id was found, and the remaining
`communicate()` output (stderr is redirected to stdout in this mode, so
`commErr` is what the `if stderr:` append would see). -/
structure StreamOutcome where
  excStart : Option String
  lines : List String
  finalRc : Option Int
  commOut : String
  commErr : String

/-- Oracle for the batch subprocess: an exception, or exit code with
captured stdout and stderr. -/
inductive BatchOutcome where
  | exc (msg : String)
  | done (rc : Int) (stdout : String) (stderr : String)

/-- Oracle for the archival upload: `some e` models an exception with
text `e` anywhere inside the storage block. -/
structure GcsOutcome where
  failMsg : Option String

structure PipeWorld where
  batch : BatchOutcome
  stream : StreamOutcome
  gcs : GcsOutcome
  scriptHex : String
  fallbackHex : String

/-- The transient-file slot of the filesystem: whether
`temp_pipeline_<uuid>.py` exists. -/
structure FS where
  tempExists : Bool
deriving DecidableEq

/-- The JSON dictionary returned by the pipeline builder: an error result
(`status: "error"` with `error_message`), or a success-family result. -/
inductive PipeResult where
  | perr (error_message : String)
  | pok (status : String) (report : String) (job_id : String)
      (gcs_script_path : Option String)
deriving DecidableEq

/-- Python `returncode or 1`: the return code when truthy (non-`None`,
nonzero), else `1`. -/
def pyOrOne (r : Option Int) : Int :=
  match r with
  | some n => if n ≠ 0 then n else 1
  | none => 1

/-- Lines 180-192: the incremental stream watcher — accumulate decoded
lines until one matches the id pattern (the matching line included), then
stop. -/
def streamScan : List String → String × Option String
  | [] => ("", none)
  | ln :: rest =>
    match findJobId ln with
    | some jid => (ln, some jid)
    | none =>
      let (o, r) := streamScan rest
      (ln ++ o, r)

/-- Lines 170-228, the mode-specific subprocess phase: captured output
and the extracted id, or the raised exception.  Streaming with no match
drains `communicate()` into the output and raises `CalledProcessError`;
batch raises on a nonzero exit and otherwise searches the combined
output. -/
def pipeProcPhase (w : PipeWorld) (pipeline_type : String) :
    Except PyExc (String × Option String) :=
  if pipeline_type = "streaming" then
    match w.stream.excStart with
    | some m => .error (.other m)
    | none =>
      match streamScan w.stream.lines with
      | (output, some jid) => .ok (output, some jid)
      | (output, none) =>
        let output2 := output ++ w.stream.commOut ++
          (if w.stream.commErr ≠ "" then w.stream.commErr else "")
        .error (.calledProc (pyOrOne w.stream.finalRc) output2)
  else
    match w.batch with
    | .exc m => .error (.other m)
    | .done rc out err2 =>
      let output := out ++ err2
      if rc ≠ 0 then .error (.calledProc (pyOrOne (some rc)) output)
      else .ok (output, findJobId output)

/-- Lines 92-305: guards, transient-file write, subprocess phase, id
check, archival and report assembly, exception handlers, and the
`finally` cleanup applied to every exit path that entered the `try`. -/
def generate_and_run_beam_pipeline (w : PipeWorld)
    (project_id region gcs_bucket_path job_name pipeline_code : String)
    (pipeline_args : List (String × String)) (pipeline_type : String)
    (fs : FS) : PipeResult × FS :=
  if project_id = "" ∨ region = "" ∨ gcs_bucket_path = "" then
    (.perr "project_id, region, and gcs_bucket_path are required.", fs)
  else if ¬ leadsSeg "gs://".data gcs_bucket_path.data then
    (.perr ("gcs_bucket_path must start with " ++ pyQuote ++ "gs://" ++ pyQuote ++ "."), fs)
  else
    let sanitized := _sanitize_job_name w.fallbackHex job_name
    let fs1 : FS := ⟨true⟩
    let bodyRes : Except PyExc PipeResult :=
      match pipeProcPhase w pipeline_type with
      | .error e => .error e
      | .ok (output, idOpt) =>
        match idOpt with
        | none =>
          .ok (.perr ("Job launched, but could not find Job ID in output. Full output:\n" ++ output))
        | some jid =>
          let gp : Option String × Option String :=
            match w.gcs.failMsg with
            | none => (some (gcsArchivePath gcs_bucket_path sanitized w.scriptHex), none)
            | some e => (none, some e)
          let status :=
            match gp.2 with
            | some _ => "success_with_warning"
            | none => "success"
          .ok (.pok status (pipeReport sanitized jid output gp.1 gp.2) jid gp.1)
    let result :=
      match bodyRes with
      | .ok r => r
      | .error (.calledProc _ out) =>
        .perr ("Failed to execute pipeline script.\n--- ERROR ---\n" ++ out)
      | .error (.other m) => .perr ("Unexpected error: " ++ m)
    (result, if fs1.tempExists then ⟨false⟩ else fs1)

theorem hasSeg_self_append (pat y : List Char) : hasSeg pat (pat ++ y) = true := by
  cases pat with
  | nil =>
    cases y with
    | nil => rfl
    | cons a ys => simp [hasSeg, leadsSeg]
  | cons p ps =>
    simp only [List.cons_append, hasSeg, Bool.or_eq_true]
    exact Or.inl (leadsSeg_append_self (p :: ps) y)

theorem hasSeg_append_right (x : List Char) {pat y : List Char}
    (h : hasSeg pat y = true) : hasSeg pat (x ++ y) = true := by
  induction x with
  | nil => exact h
  | cons a xs ih =>
    simp [hasSeg, ih]

theorem hasSeg_append_end (x pat : List Char) : hasSeg pat (x ++ pat) = true :=
  hasSeg_append_right x (by simpa using hasSeg_self_append pat [])

theorem joinStr_append_single (sep : String) :
    ∀ (A : List String) (w : String), A ≠ [] →
      joinStr sep (A ++ [w]) = joinStr sep A ++ sep ++ w := by
  intro A
  induction A with
  | nil => intro w h; exact absurd rfl h
  | cons a as ih =>
    intro w _
    cases as with
    | nil => rfl
    | cons b bs =>
      show a ++ sep ++ joinStr sep ((b :: bs) ++ [w]) = _
      rw [ih w (by simp)]
      rw [show joinStr sep (a :: b :: bs) = a ++ sep ++ joinStr sep (b :: bs) from rfl]
      simp [String.append_assoc]

/-- Once the guards pass, a success-family result arises only from a
subprocess phase that succeeded with an extracted identifier — every
other failure kind produces an error result — and the status is one of
the two success values with the returned id the extracted one. -/
theorem pipeline_pok_inversion (w : PipeWorld)
    (project_id region gcs_bucket_path job_name pipeline_code : String)
    (pipeline_args : List (String × String)) (pipeline_type : String) (fs : FS)
    (h1 : ¬ (project_id = "" ∨ region = "" ∨ gcs_bucket_path = ""))
    (h2 : leadsSeg "gs://".data gcs_bucket_path.data = true)
    (s r j : String) (g : Option String) (fs2 : FS)
    (hres : generate_and_run_beam_pipeline w project_id region gcs_bucket_path
        job_name pipeline_code pipeline_args pipeline_type fs = (.pok s r j g, fs2)) :
    (∃ output, pipeProcPhase w pipeline_type = .ok (output, some j)) ∧
      (s = "success" ∨ s = "success_with_warning") := by
  simp only [generate_and_run_beam_pipeline] at hres
  rw [if_neg h1, if_neg (not_not_intro h2)] at hres
  cases hph : pipeProcPhase w pipeline_type with
  | error e =>
    rw [hph] at hres
    cases e <;> simp at hres
  | ok pr =>
    obtain ⟨output, idOpt⟩ := pr
    rw [hph] at hres
    cases idOpt with
    | none => simp at hres
    | some jid =>
      refine ⟨⟨output, ?_⟩, ?_⟩
      · cases hg : w.gcs.failMsg <;> rw [hg] at hres <;>
          simp only [Prod.mk.injEq, PipeResult.pok.injEq] at hres <;>
          rw [hres.1.2.2.1]
      · cases hg : w.gcs.failMsg <;> rw [hg] at hres <;>
          simp only [Prod.mk.injEq, PipeResult.pok.injEq] at hres
        · exact Or.inl hres.1.1.symm
        · exact Or.inr hres.1.1.symm

/-- Claim C9: in every invocation that passes the argument guards (and
therefore writes the transient pipeline source file), the transient-file
slot is absent in the returned state, on every exit path — subprocess
exception, nonzero exit, missing identifier, success, or archival
failure — for both modes and whatever the oracles return: the `finally`
block removes the file unconditionally. -/
theorem claim_C9_temp_file_cleanup (w : PipeWorld)
    (project_id region gcs_bucket_path job_name pipeline_code : String)
    (pipeline_args : List (String × String)) (pipeline_type : String) (fs : FS)
    (h1 : ¬ (project_id = "" ∨ region = "" ∨ gcs_bucket_path = ""))
    (h2 : leadsSeg "gs://".data gcs_bucket_path.data = true) :
    (generate_and_run_beam_pipeline w project_id region gcs_bucket_path job_name
        pipeline_code pipeline_args pipeline_type fs).2.tempExists = false := by
  simp only [generate_and_run_beam_pipeline]
  rw [if_neg h1, if_neg (not_not_intro h2)]
  simp

/-- Witness for C9 at a concrete failing batch run. -/
theorem claim_C9_temp_file_cleanup_witness :
    (generate_and_run_beam_pipeline
        ⟨.done 1 "boom" "", ⟨none, [], none, "", ""⟩, ⟨none⟩, "abcd1234", "abcd1234"⟩
        "proj" "r" "gs://bkt" "My Job" "code" [] "batch" ⟨false⟩).2.tempExists = false :=
  claim_C9_temp_file_cleanup
    ⟨.done 1 "boom" "", ⟨none, [], none, "", ""⟩, ⟨none⟩, "abcd1234", "abcd1234"⟩
    "proj" "r" "gs://bkt" "My Job" "code" [] "batch" ⟨false⟩
    (by decide) (by decide)

set_option maxRecDepth 8000 in
/-- Claim C6, counterexample: `submit_dataflow_template` performs no
identifier search at all — a subprocess that exits zero with output
containing no job-identifier pattern is reported as a success result
carrying that output, refuting the claim for the template-submission
flow (lines 384-392 of the source return success on any zero exit). -/
theorem claim_C6_counterexample :
    submit_dataflow_template
        (fun _ => some (0, "deployment finished with no job identifier", ""))
        "job" (.jobj []) (.jobj [("template_gcs_path", .jstr "gs://bkt/x"),
          ("params", .jobj [("required", .jarr [])])])
        "proj" "region" "gs://stg" "" =
      ⟨"success", "Job Submitted Successfully",
        some "deployment finished with no job identifier"⟩ ∧
    findJobId "deployment finished with no job identifier" = none :=
  ⟨rfl, by decide⟩

/-- Claim C6 as amended: the identifier discipline holds in the custom
pipeline builder — a zero-exit batch run whose combined output contains
no identifier pattern yields an error result embedding the full output,
and a success-family result always carries an identifier extracted by the
pattern search; `submit_dataflow_template`, by contrast, searches for no
identifier and reports success on every zero-exit run. -/
theorem claim_C6_id_discipline (w : PipeWorld)
    (project_id region gcs_bucket_path job_name pipeline_code : String)
    (pipeline_args : List (String × String)) (fs : FS)
    (h1 : ¬ (project_id = "" ∨ region = "" ∨ gcs_bucket_path = ""))
    (h2 : leadsSeg "gs://".data gcs_bucket_path.data = true) :
    (∀ out err2, w.batch = .done 0 out err2 → findJobId (out ++ err2) = none →
      generate_and_run_beam_pipeline w project_id region gcs_bucket_path job_name
          pipeline_code pipeline_args "batch" fs =
        (.perr ("Job launched, but could not find Job ID in output. Full output:\n" ++
          (out ++ err2)), ⟨false⟩)) ∧
    (∀ ty s r j g fs2,
      generate_and_run_beam_pipeline w project_id region gcs_bucket_path job_name
          pipeline_code pipeline_args ty fs = (.pok s r j g, fs2) →
      ∃ output, pipeProcPhase w ty = .ok (output, some j)) ∧
    (∀ (run : String → Option (Int × String × String)) jn u td gp rg sl cg cmd out err2,
      submit_prepare jn u td gp rg sl cg = .execCmd cmd →
      run cmd = some (0, out, err2) →
      submit_dataflow_template run jn u td gp rg sl cg =
        ⟨"success", "Job Submitted Successfully", some out⟩) := by
  refine ⟨?_, ?_, ?_⟩
  · intro out err2 hb hfind
    have hph : pipeProcPhase w "batch" = .ok (out ++ err2, none) := by
      simp only [pipeProcPhase]
      rw [if_neg (by decide), hb]
      simp only []
      rw [if_neg (by simp), hfind]
    simp only [generate_and_run_beam_pipeline]
    rw [if_neg h1, if_neg (not_not_intro h2), hph]
    simp
  · intro ty s r j g fs2 hres
    exact (pipeline_pok_inversion w project_id region gcs_bucket_path job_name
      pipeline_code pipeline_args ty fs h1 h2 s r j g fs2 hres).1
  · intro run jn u td gp rg sl cg cmd out err2 hprep hrun
    simp only [submit_dataflow_template]
    rw [hprep]
    dsimp only
    rw [hrun]
    rfl

/-- Witness for C6's amended theorem: a concrete zero-exit batch run with
no identifier in its output yields the error result. -/
theorem claim_C6_id_discipline_witness :
    generate_and_run_beam_pipeline
        ⟨.done 0 "build ok but no identifier" "", ⟨none, [], none, "", ""⟩,
          ⟨none⟩, "abcd1234", "abcd1234"⟩
        "proj" "r" "gs://bkt" "My Job" "code" [] "batch" ⟨false⟩ =
      (.perr ("Job launched, but could not find Job ID in output. Full output:\n" ++
        ("build ok but no identifier" ++ "")), ⟨false⟩) :=
  (claim_C6_id_discipline
      ⟨.done 0 "build ok but no identifier" "", ⟨none, [], none, "", ""⟩,
        ⟨none⟩, "abcd1234", "abcd1234"⟩
      "proj" "r" "gs://bkt" "My Job" "code" [] ⟨false⟩
      (by decide) (by decide)).1
    "build ok but no identifier" "" rfl (by decide)

/-- Claim C8: once the subprocess phase succeeded with an extracted
identifier, an archival failure downgrades the result to
`success_with_warning` — with the archival error text occurring in the
report and no archive path returned — rather than failing the operation;
a successful archival gives `success` with the archive path (derived from
the sanitized job name and the random suffix) both returned and occurring
in the report; and archival failure is the only error kind that does not
fail the operation: every success-family result comes from a subprocess
phase that succeeded with an identifier, with one of these two
statuses. -/
theorem claim_C8_archival_warning (w : PipeWorld)
    (project_id region gcs_bucket_path job_name pipeline_code : String)
    (pipeline_args : List (String × String)) (pipeline_type : String) (fs : FS)
    (h1 : ¬ (project_id = "" ∨ region = "" ∨ gcs_bucket_path = ""))
    (h2 : leadsSeg "gs://".data gcs_bucket_path.data = true)
    (output jid : String)
    (hphase : pipeProcPhase w pipeline_type = .ok (output, some jid)) :
    (∀ e, w.gcs.failMsg = some e →
      generate_and_run_beam_pipeline w project_id region gcs_bucket_path job_name
          pipeline_code pipeline_args pipeline_type fs =
        (.pok "success_with_warning"
          (pipeReport (_sanitize_job_name w.fallbackHex job_name) jid output none (some e))
          jid none, ⟨false⟩) ∧
      hasSeg e.data
        (pipeReport (_sanitize_job_name w.fallbackHex job_name) jid output none (some e)).data
        = true) ∧
    (w.gcs.failMsg = none →
      generate_and_run_beam_pipeline w project_id region gcs_bucket_path job_name
          pipeline_code pipeline_args pipeline_type fs =
        (.pok "success"
          (pipeReport (_sanitize_job_name w.fallbackHex job_name) jid output
            (some (gcsArchivePath gcs_bucket_path
              (_sanitize_job_name w.fallbackHex job_name) w.scriptHex)) none)
          jid
          (some (gcsArchivePath gcs_bucket_path
            (_sanitize_job_name w.fallbackHex job_name) w.scriptHex)), ⟨false⟩) ∧
      hasSeg (gcsArchivePath gcs_bucket_path
          (_sanitize_job_name w.fallbackHex job_name) w.scriptHex).data
        (pipeReport (_sanitize_job_name w.fallbackHex job_name) jid output
          (some (gcsArchivePath gcs_bucket_path
            (_sanitize_job_name w.fallbackHex job_name) w.scriptHex)) none).data
        = true) ∧
    (∀ s r j g fs2,
      generate_and_run_beam_pipeline w project_id region gcs_bucket_path job_name
          pipeline_code pipeline_args pipeline_type fs = (.pok s r j g, fs2) →
      (∃ out2, pipeProcPhase w pipeline_type = .ok (out2, some j)) ∧
        (s = "success" ∨ s = "success_with_warning")) := by
  refine ⟨?_, ?_, ?_⟩
  · intro e hg
    constructor
    · simp only [generate_and_run_beam_pipeline]
      rw [if_neg h1, if_neg (not_not_intro h2), hphase, hg]
      rfl
    · rw [pipeReport]
      simp only [List.append_nil]
      rw [joinStr_append_single "\n" _ _ (by simp)]
      simp only [String.data_append, ← List.append_assoc]
      exact hasSeg_append_end _ _
  · intro hg
    constructor
    · simp only [generate_and_run_beam_pipeline]
      rw [if_neg h1, if_neg (not_not_intro h2), hphase, hg]
      rfl
    · rw [pipeReport]
      simp only [List.append_nil]
      rw [joinStr_append_single "\n" _ _ (by simp)]
      simp only [String.data_append, ← List.append_assoc]
      exact hasSeg_append_end _ _
  · intro s r j g fs2 hres
    exact pipeline_pok_inversion w project_id region gcs_bucket_path job_name
      pipeline_code pipeline_args pipeline_type fs h1 h2 s r j g fs2 hres

/-- Witness for C8 at a concrete successful batch run with successful
archival. -/
theorem claim_C8_archival_warning_witness :
    generate_and_run_beam_pipeline
        ⟨.done 0 "id 2024-01-02_03_04_05-6789 ok" "", ⟨none, [], none, "", ""⟩,
          ⟨none⟩, "abcd1234", "ffff0000"⟩
        "proj" "r" "gs://bkt" "My Job" "code" [] "batch" ⟨false⟩ =
      (.pok "success"
        (pipeReport (_sanitize_job_name "ffff0000" "My Job") "2024-01-02_03_04_05-6789"
          ("id 2024-01-02_03_04_05-6789 ok" ++ "")
          (some (gcsArchivePath "gs://bkt" (_sanitize_job_name "ffff0000" "My Job") "abcd1234")) none)
        "2024-01-02_03_04_05-6789"
        (some (gcsArchivePath "gs://bkt" (_sanitize_job_name "ffff0000" "My Job") "abcd1234")),
        ⟨false⟩) ∧
    hasSeg (gcsArchivePath "gs://bkt" (_sanitize_job_name "ffff0000" "My Job") "abcd1234").data
      (pipeReport (_sanitize_job_name "ffff0000" "My Job") "2024-01-02_03_04_05-6789"
        ("id 2024-01-02_03_04_05-6789 ok" ++ "")
        (some (gcsArchivePath "gs://bkt" (_sanitize_job_name "ffff0000" "My Job") "abcd1234")) none).data
      = true :=
  (claim_C8_archival_warning
      ⟨.done 0 "id 2024-01-02_03_04_05-6789 ok" "", ⟨none, [], none, "", ""⟩,
        ⟨none⟩, "abcd1234", "ffff0000"⟩
      "proj" "r" "gs://bkt" "My Job" "code" [] "batch" ⟨false⟩
      (by decide) (by decide)
      ("id 2024-01-02_03_04_05-6789 ok" ++ "") "2024-01-02_03_04_05-6789"
      rfl).2.1 rfl
